import Mathlib

/-!
Shallow embedding of the core of the Trading-Terminal Solana indexer
(crates indexer-core and indexer-bin), together with theorems that settle
the specification claims about it.

The embedding mirrors, function by function:
* src/indexer/indexer-core/src/spl_parser.rs     (SPL token decoder)
* src/indexer/indexer-core/src/bonding_parser.rs (pump bonding-curve decoder)
* src/indexer/indexer-core/src/raydium_parser.rs (AMM decoder)
* src/indexer/indexer-core/src/meteora_parser.rs (DLMM decoder)
* src/indexer/indexer-core/src/db.rs             (row-level store semantics)
* src/indexer/indexer-bin/src/main.rs            (writer loop)
* src/indexer/indexer-core/src/firehose.rs       (reconnect / resume logic)

Machine integers are embedded as Nat/Int: a byte is a Nat (< 256 where it
matters, stated as a hypothesis), a u64 is a Nat, and the Rust cast
`u64 as i64` is the explicit two's-complement reinterpretation `i64OfU64`.
The f64 arithmetic used by the swap-direction rule is embedded exactly by
round-to-nearest-even dyadic rationals (exact for the normal f64 range,
which covers every value these functions can produce).
-/

set_option maxHeartbeats 1000000
set_option maxRecDepth 100000

/-- Little-endian value of a list of bytes: `b0 + 256*b1 + 256^2*b2 + ...`. -/
def leValue : List Nat → Nat
  | [] => 0
  | b :: bs => b + 256 * leValue bs

/-- Embeds `read_u64_le` (identical in spl_parser.rs, bonding_parser.rs,
raydium_parser.rs and meteora_parser.rs): `None` when fewer than 8 bytes
remain, otherwise the little-endian u64 of the first 8 bytes. -/
def read_u64_le (bytes : List Nat) : Option Nat :=
  if bytes.length < 8 then none else some (leValue (bytes.take 8))

/-- Embeds `read_u32_le` from meteora_parser.rs. -/
def read_u32_le (bytes : List Nat) : Option Nat :=
  if bytes.length < 4 then none else some (leValue (bytes.take 4))

/-- The Rust cast `u64 as i64`: two's-complement reinterpretation of a u64
value as an i64. -/
def i64OfU64 (n : Nat) : Int :=
  if n < 2 ^ 63 then (n : Int) else (n : Int) - 2 ^ 64

/-- Smallest unix second representable by a chrono `DateTime<Utc>`
(`DateTime::<Utc>::MIN_UTC.timestamp()`). -/
def chronoMinTs : Int := -8334601228800

/-- Largest unix second representable by a chrono `DateTime<Utc>`
(`DateTime::<Utc>::MAX_UTC.timestamp()`). -/
def chronoMaxTs : Int := 8210266876799

/-- Embeds `Utc.timestamp_opt(t, 0).single()`: `Some` exactly when the
second count is inside chrono's representable range.  A `DateTime<Utc>`
at second precision is embedded as its unix timestamp (an `Int`). -/
def timestampSingle (t : Int) : Option Int :=
  if chronoMinTs ≤ t ∧ t ≤ chronoMaxTs then some t else none

/-- Embeds `InstructionRef` from spl_parser.rs.  `accounts` holds u8
indices into the transaction's `account_keys`; `data` holds bytes. -/
structure InstructionRef where
  program_id : String
  accounts : List Nat
  data : List Nat
  index : Int
deriving DecidableEq, Repr

/-- Embeds `MessageRef` from spl_parser.rs. -/
structure MessageRef where
  account_keys : List String
deriving DecidableEq, Repr

/-- Embeds `TransactionRef` from spl_parser.rs. -/
structure TransactionRef where
  signature : String
  index : Int
  message : MessageRef
  instructions : List InstructionRef
deriving DecidableEq, Repr

/-- Embeds `BlockRef` from spl_parser.rs. -/
structure BlockRef where
  slot : Int
  block_time_unix : Option Int
  transactions : List TransactionRef
deriving DecidableEq, Repr

/-- The `block_time` computation shared by all decoders:
`block.block_time_unix.map(|t| Utc.timestamp_opt(t, 0).single()).flatten()`. -/
def BlockRef.blockTime (b : BlockRef) : Option Int :=
  b.block_time_unix.bind timestampSingle

/-- Embeds `TokenTransfer` from models.rs. -/
structure TokenTransfer where
  signature : String
  slot : Int
  block_time : Option Int
  mint_pubkey : String
  source_owner : String
  dest_owner : String
  source_ata : String
  dest_ata : String
  amount : Int
  tx_index : Int
  ix_index : Int
deriving DecidableEq, Repr

/-- Embeds `BondingCurveTrade` from models.rs (shared by all three DEX
decoders). -/
structure BondingCurveTrade where
  signature : String
  slot : Int
  block_time : Option Int
  mint_pubkey : String
  trader : String
  side : String
  token_amount : Int
  sol_amount : Int
  price_nanos_per_token : Int
  tx_index : Int
  ix_index : Int
deriving DecidableEq, Repr

/-- Embeds `Candle` from models.rs; `bucket_start` is the unix second of
the bucket.  The source field `open` is spelled `open_` because `open` is
a Lean keyword. -/
structure Candle where
  mint_pubkey : String
  timeframe_secs : Int
  bucket_start : Int
  open_ : Int
  high : Int
  low : Int
  close : Int
  volume_token : Int
  volume_sol : Int
  trades_count : Int
deriving DecidableEq, Repr

/-- `SPL_TOKEN_PROGRAM_ID` from spl_parser.rs. -/
def SPL_TOKEN_PROGRAM_ID : String := "TokenkegQfeZyiNwAJbNbGKPFXCWuBvf9Ss623VQ5DA"

/-- Embeds `parse_transfer` (spl_parser.rs, discriminator 3): unchecked
Transfer.  The mint is not recoverable, so a non-empty whitelist skips the
instruction; an empty whitelist emits the placeholder mint. -/
def parse_transfer (block : BlockRef) (tx : TransactionRef) (ix : InstructionRef)
    (mint_whitelist : List String) : Option TokenTransfer :=
  if ix.accounts.length < 3 then none else
  match ix.accounts.get? 0, ix.accounts.get? 2 with
  | some source_ata_idx, some dest_ata_idx =>
    match tx.message.account_keys.get? source_ata_idx,
          tx.message.account_keys.get? dest_ata_idx with
    | some source_ata, some dest_ata =>
      match read_u64_le (ix.data.drop 1) with
      | some amount =>
        if mint_whitelist ≠ [] then none else
        some { signature := tx.signature
               slot := block.slot
               block_time := block.blockTime
               mint_pubkey := "unknown_mint"
               source_owner := source_ata
               dest_owner := dest_ata
               source_ata := source_ata
               dest_ata := dest_ata
               amount := i64OfU64 amount
               tx_index := tx.index
               ix_index := ix.index }
      | none => none
    | _, _ => none
  | _, _ => none

/-- Embeds `parse_transfer_checked` (spl_parser.rs, discriminator 12). -/
def parse_transfer_checked (block : BlockRef) (tx : TransactionRef) (ix : InstructionRef)
    (mint_whitelist : List String) : Option TokenTransfer :=
  if ix.accounts.length < 3 ∨ ix.data.length < 10 then none else
  match ix.accounts.get? 0, ix.accounts.get? 1, ix.accounts.get? 2 with
  | some source_ata_idx, some mint_idx, some dest_ata_idx =>
    match tx.message.account_keys.get? source_ata_idx,
          tx.message.account_keys.get? mint_idx,
          tx.message.account_keys.get? dest_ata_idx with
    | some source_ata, some mint_pubkey, some dest_ata =>
      if mint_whitelist ≠ [] ∧ mint_pubkey ∉ mint_whitelist then none else
      match read_u64_le (ix.data.drop 1) with
      | some amount =>
        some { signature := tx.signature
               slot := block.slot
               block_time := block.blockTime
               mint_pubkey := mint_pubkey
               source_owner := source_ata
               dest_owner := dest_ata
               source_ata := source_ata
               dest_ata := dest_ata
               amount := i64OfU64 amount
               tx_index := tx.index
               ix_index := ix.index }
      | none => none
    | _, _, _ => none
  | _, _, _ => none

/-- Embeds `parse_mint_to` (spl_parser.rs, discriminator 7). -/
def parse_mint_to (block : BlockRef) (tx : TransactionRef) (ix : InstructionRef)
    (mint_whitelist : List String) : Option TokenTransfer :=
  if ix.accounts.length < 2 ∨ ix.data.length < 9 then none else
  match ix.accounts.get? 0, ix.accounts.get? 1 with
  | some mint_idx, some dest_ata_idx =>
    match tx.message.account_keys.get? mint_idx,
          tx.message.account_keys.get? dest_ata_idx with
    | some mint_pubkey, some dest_ata =>
      if mint_whitelist ≠ [] ∧ mint_pubkey ∉ mint_whitelist then none else
      match read_u64_le (ix.data.drop 1) with
      | some amount =>
        some { signature := tx.signature
               slot := block.slot
               block_time := block.blockTime
               mint_pubkey := mint_pubkey
               source_owner := "system"
               dest_owner := dest_ata
               source_ata := "system"
               dest_ata := dest_ata
               amount := i64OfU64 amount
               tx_index := tx.index
               ix_index := ix.index }
      | none => none
    | _, _ => none
  | _, _ => none

/-- Embeds `parse_mint_to_checked` (spl_parser.rs, discriminator 13). -/
def parse_mint_to_checked (block : BlockRef) (tx : TransactionRef) (ix : InstructionRef)
    (mint_whitelist : List String) : Option TokenTransfer :=
  if ix.accounts.length < 2 ∨ ix.data.length < 10 then none else
  match ix.accounts.get? 0, ix.accounts.get? 1 with
  | some mint_idx, some dest_ata_idx =>
    match tx.message.account_keys.get? mint_idx,
          tx.message.account_keys.get? dest_ata_idx with
    | some mint_pubkey, some dest_ata =>
      if mint_whitelist ≠ [] ∧ mint_pubkey ∉ mint_whitelist then none else
      match read_u64_le (ix.data.drop 1) with
      | some amount =>
        some { signature := tx.signature
               slot := block.slot
               block_time := block.blockTime
               mint_pubkey := mint_pubkey
               source_owner := "system"
               dest_owner := dest_ata
               source_ata := "system"
               dest_ata := dest_ata
               amount := i64OfU64 amount
               tx_index := tx.index
               ix_index := ix.index }
      | none => none
    | _, _ => none
  | _, _ => none

/-- Embeds `parse_burn` (spl_parser.rs, discriminator 8). -/
def parse_burn (block : BlockRef) (tx : TransactionRef) (ix : InstructionRef)
    (mint_whitelist : List String) : Option TokenTransfer :=
  if ix.accounts.length < 2 ∨ ix.data.length < 9 then none else
  match ix.accounts.get? 0, ix.accounts.get? 1 with
  | some source_ata_idx, some mint_idx =>
    match tx.message.account_keys.get? source_ata_idx,
          tx.message.account_keys.get? mint_idx with
    | some source_ata, some mint_pubkey =>
      if mint_whitelist ≠ [] ∧ mint_pubkey ∉ mint_whitelist then none else
      match read_u64_le (ix.data.drop 1) with
      | some amount =>
        some { signature := tx.signature
               slot := block.slot
               block_time := block.blockTime
               mint_pubkey := mint_pubkey
               source_owner := source_ata
               dest_owner := "burn"
               source_ata := source_ata
               dest_ata := "burn"
               amount := i64OfU64 amount
               tx_index := tx.index
               ix_index := ix.index }
      | none => none
    | _, _ => none
  | _, _ => none

/-- Embeds `parse_burn_checked` (spl_parser.rs, discriminator 14). -/
def parse_burn_checked (block : BlockRef) (tx : TransactionRef) (ix : InstructionRef)
    (mint_whitelist : List String) : Option TokenTransfer :=
  if ix.accounts.length < 2 ∨ ix.data.length < 10 then none else
  match ix.accounts.get? 0, ix.accounts.get? 1 with
  | some source_ata_idx, some mint_idx =>
    match tx.message.account_keys.get? source_ata_idx,
          tx.message.account_keys.get? mint_idx with
    | some source_ata, some mint_pubkey =>
      if mint_whitelist ≠ [] ∧ mint_pubkey ∉ mint_whitelist then none else
      match read_u64_le (ix.data.drop 1) with
      | some amount =>
        some { signature := tx.signature
               slot := block.slot
               block_time := block.blockTime
               mint_pubkey := mint_pubkey
               source_owner := source_ata
               dest_owner := "burn"
               source_ata := source_ata
               dest_ata := "burn"
               amount := i64OfU64 amount
               tx_index := tx.index
               ix_index := ix.index }
      | none => none
    | _, _ => none
  | _, _ => none

/-- Embeds `parse_spl_transfer` (spl_parser.rs): dispatch on the 1-byte
discriminator `data[0]`; empty data or an unknown discriminator yields
nothing. -/
def parse_spl_transfer (block : BlockRef) (tx : TransactionRef) (ix : InstructionRef)
    (mint_whitelist : List String) : Option TokenTransfer :=
  match ix.data.get? 0 with
  | none => none
  | some instr_type =>
    if instr_type = 3 then parse_transfer block tx ix mint_whitelist
    else if instr_type = 12 then parse_transfer_checked block tx ix mint_whitelist
    else if instr_type = 7 then parse_mint_to block tx ix mint_whitelist
    else if instr_type = 13 then parse_mint_to_checked block tx ix mint_whitelist
    else if instr_type = 8 then parse_burn block tx ix mint_whitelist
    else if instr_type = 14 then parse_burn_checked block tx ix mint_whitelist
    else none

/-- The (transaction, instruction) pairs of a block in block order, as
iterated by every extractor's nested `for` loops. -/
def instructionsOf (block : BlockRef) : List (TransactionRef × InstructionRef) :=
  block.transactions.flatMap (fun tx => tx.instructions.map (fun ix => (tx, ix)))

/-- Embeds `extract_transfers_from_block` (spl_parser.rs): all SPL-program
instructions of the block, decoded in block order. -/
def extract_transfers_from_block (block : BlockRef) (mint_whitelist : List String) :
    List TokenTransfer :=
  (instructionsOf block).filterMap (fun p =>
    if p.2.program_id ≠ SPL_TOKEN_PROGRAM_ID then none
    else parse_spl_transfer block p.1 p.2 mint_whitelist)

/-- The 32-bit right-rotation used by SHA-256 (operands are < 2^32). -/
def rotr32 (x n : Nat) : Nat :=
  ((x >>> n) ||| (x <<< (32 - n))) % 2 ^ 32

/-- SHA-256 round constants (FIPS 180-4), written in decimal. -/
def sha256K : List Nat :=
  [1116352408, 1899447441, 3049323471, 3921009573, 961987163,
   1508970993, 2453635748, 2870763221, 3624381080, 310598401,
   607225278, 1426881987, 1925078388, 2162078206, 2614888103,
   3248222580, 3835390401, 4022224774, 264347078, 604807628,
   770255983, 1249150122, 1555081692, 1996064986, 2554220882,
   2821834349, 2952996808, 3210313671, 3336571891, 3584528711,
   113926993, 338241895, 666307205, 773529912, 1294757372,
   1396182291, 1695183700, 1986661051, 2177026350, 2456956037,
   2730485921, 2820302411, 3259730800, 3345764771, 3516065817,
   3600352804, 4094571909, 275423344, 430227734, 506948616,
   659060556, 883997877, 958139571, 1322822218, 1537002063,
   1747873779, 1955562222, 2024104815, 2227730452, 2361852424,
   2428436474, 2756734187, 3204031479, 3329325298]

/-- SHA-256 initial hash state (FIPS 180-4), written in decimal. -/
def sha256H0 : List Nat :=
  [1779033703, 3144134277, 1013904242, 2773480762,
   1359893119, 2600822924, 528734635, 1541459225]

/-- Big-endian 32-bit word at byte offset `i` of a byte list. -/
def beWordAt (bytes : List Nat) (i : Nat) : Nat :=
  (bytes.getD i 0) <<< 24 + (bytes.getD (i + 1) 0) <<< 16 +
    (bytes.getD (i + 2) 0) <<< 8 + bytes.getD (i + 3) 0

/-- SHA-256 message schedule: the 64 words extended from a 64-byte chunk. -/
def sha256Schedule (chunk : List Nat) : List Nat :=
  let w0 := (List.range 16).map (fun i => beWordAt chunk (4 * i))
  (List.range 48).foldl (fun w t =>
    let i := t + 16
    let s0 := rotr32 (w.getD (i - 15) 0) 7 ^^^ rotr32 (w.getD (i - 15) 0) 18 ^^^
      (w.getD (i - 15) 0) >>> 3
    let s1 := rotr32 (w.getD (i - 2) 0) 17 ^^^ rotr32 (w.getD (i - 2) 0) 19 ^^^
      (w.getD (i - 2) 0) >>> 10
    w ++ [(w.getD (i - 16) 0 + s0 + w.getD (i - 7) 0 + s1) % 2 ^ 32]) w0

/-- One SHA-256 round on the 8-word working state. -/
def sha256Round (s : List Nat) (k w : Nat) : List Nat :=
  match s with
  | [a, b, c, d, e, f, g, h] =>
    let s1 := rotr32 e 6 ^^^ rotr32 e 11 ^^^ rotr32 e 25
    let ch := (e &&& f) ^^^ ((e ^^^ (2 ^ 32 - 1)) &&& g)
    let temp1 := (h + s1 + ch + k + w) % 2 ^ 32
    let s0 := rotr32 a 2 ^^^ rotr32 a 13 ^^^ rotr32 a 22
    let maj := (a &&& b) ^^^ (a &&& c) ^^^ (b &&& c)
    let temp2 := (s0 + maj) % 2 ^ 32
    [(temp1 + temp2) % 2 ^ 32, a, b, c, (d + temp1) % 2 ^ 32, e, f, g]
  | _ => s

/-- SHA-256 compression of one 64-byte chunk into the hash state. -/
def sha256Compress (hs chunk : List Nat) : List Nat :=
  let s := (sha256K.zip (sha256Schedule chunk)).foldl
    (fun s kw => sha256Round s kw.1 kw.2) hs
  List.zipWith (fun x y => (x + y) % 2 ^ 32) hs s

/-- `k`-byte big-endian encoding of `n`. -/
def natToBytesBE (n k : Nat) : List Nat :=
  (List.range k).map (fun i => (n >>> (8 * (k - 1 - i))) % 256)

/-- Embeds `Sha256::digest`: the 32-byte SHA-256 digest of a byte list. -/
def sha256 (msg : List Nat) : List Nat :=
  let zeros := (64 - (msg.length + 9) % 64) % 64
  let padded := msg ++ [0x80] ++ List.replicate zeros 0 ++ natToBytesBE (8 * msg.length) 8
  let final := (List.range (padded.length / 64)).foldl
    (fun hs i => sha256Compress hs ((padded.drop (64 * i)).take 64)) sha256H0
  (final.map (fun w => natToBytesBE w 4)).flatten

/-- Byte list of an ASCII string (the strings hashed here are ASCII, where
UTF-8 bytes coincide with code points). -/
def asciiBytes (s : String) : List Nat :=
  s.data.map Char.toNat

/-- Embeds `anchor_discriminator` (bonding_parser.rs): the first 8 bytes of
SHA-256 over `"global:" + name`. -/
def anchor_discriminator (name : String) : List Nat :=
  (sha256 (asciiBytes ("global:" ++ name))).take 8

/-- `PUMP_PROGRAM_ID` from bonding_parser.rs. -/
def PUMP_PROGRAM_ID : String := "6EF8rrecthR5Dkzon8Nwu78hRvfCKubJ14M5uBEwF6P"

/-- Embeds `pump_mint_and_user` (bonding_parser.rs): mint at
`accounts[2]`, user at `accounts[6]`. -/
def pump_mint_and_user (tx : TransactionRef) (ix : InstructionRef) :
    Option (String × String) :=
  if ix.accounts.length < 7 then none else
  match ix.accounts.get? 2, ix.accounts.get? 6 with
  | some mint_idx, some user_idx =>
    match tx.message.account_keys.get? mint_idx,
          tx.message.account_keys.get? user_idx with
    | some mint, some user => some (mint, user)
    | _, _ => none
  | _, _ => none

/-- Embeds `parse_buy` (bonding_parser.rs): args after the 8-byte
discriminator are `amount (u64)`, `maxSolCost (u64)`. -/
def parse_buy (slot : Int) (block_time : Option Int) (tx : TransactionRef)
    (ix : InstructionRef) : Option BondingCurveTrade :=
  match pump_mint_and_user tx ix with
  | none => none
  | some mu =>
    match read_u64_le (ix.data.drop 8) with
    | none => none
    | some token_amount =>
      match read_u64_le (ix.data.drop 16) with
      | none => none
      | some max_sol_cost =>
        let price := if token_amount = 0 then 0 else max_sol_cost / token_amount
        some { signature := tx.signature
               slot := slot
               block_time := block_time
               mint_pubkey := mu.1
               trader := mu.2
               side := "buy"
               token_amount := i64OfU64 token_amount
               sol_amount := i64OfU64 max_sol_cost
               price_nanos_per_token := i64OfU64 price
               tx_index := tx.index
               ix_index := ix.index }

/-- Embeds `parse_sell` (bonding_parser.rs): args after the 8-byte
discriminator are `amount (u64)`, `minSolOutput (u64)`. -/
def parse_sell (slot : Int) (block_time : Option Int) (tx : TransactionRef)
    (ix : InstructionRef) : Option BondingCurveTrade :=
  match pump_mint_and_user tx ix with
  | none => none
  | some mu =>
    match read_u64_le (ix.data.drop 8) with
    | none => none
    | some token_amount =>
      match read_u64_le (ix.data.drop 16) with
      | none => none
      | some min_sol_output =>
        let price := if token_amount = 0 then 0 else min_sol_output / token_amount
        some { signature := tx.signature
               slot := slot
               block_time := block_time
               mint_pubkey := mu.1
               trader := mu.2
               side := "sell"
               token_amount := i64OfU64 token_amount
               sol_amount := i64OfU64 min_sol_output
               price_nanos_per_token := i64OfU64 price
               tx_index := tx.index
               ix_index := ix.index }

/-- Embeds `extract_pump_trades_from_block` (bonding_parser.rs): dispatch
on the 8-byte anchor discriminator of each pump-program instruction. -/
def extract_pump_trades_from_block (block : BlockRef) : List BondingCurveTrade :=
  let buy_disc := anchor_discriminator ("buy")
  let sell_disc := anchor_discriminator ("sell")
  let block_time := block.blockTime
  (instructionsOf block).filterMap (fun p =>
    if p.2.program_id ≠ PUMP_PROGRAM_ID then none
    else if p.2.data.length < 8 then none
    else
      let disc := p.2.data.take 8
      if disc = buy_disc then parse_buy block.slot block_time p.1 p.2
      else if disc = sell_disc then parse_sell block.slot block_time p.1 p.2
      else none)

/-- An exact dyadic value `m * 2 ^ e`, used to embed f64 values.  Every
finite f64 is such a value; all values reachable in the swap-direction
rule are in the normal range, where the model below is bit-exact. -/
structure Dyadic where
  m : Nat
  e : Int
deriving DecidableEq, Repr

/-- Value comparison of two dyadics: `a.m * 2 ^ a.e < b.m * 2 ^ b.e`.
This coincides with the f64 `<` on the values the direction rule
compares (all nonnegative). -/
def dyLt (a b : Dyadic) : Bool :=
  if a.e ≤ b.e then a.m < b.m * 2 ^ (b.e - a.e).toNat
  else a.m * 2 ^ (a.e - b.e).toNat < b.m

/-- Fuel-driven base-2 logarithm (`natLog2 n = Nat.log2 n`), written by
structural recursion so that it evaluates inside the kernel. -/
def log2Go : Nat → Nat → Nat
  | 0, _ => 0
  | fuel + 1, n => if n < 2 then 0 else log2Go fuel (n / 2) + 1

/-- Floor of the base-2 logarithm of a positive Nat. -/
def natLog2 (n : Nat) : Nat := log2Go n n

/-- Round the positive rational `(p / q) * 2 ^ eoff` to the nearest f64
(round-to-nearest, ties to even), returned as its exact dyadic value.
Exact for results in the f64 normal range, which covers every conversion
and quotient of nonzero u64 values. -/
def roundPosRat (p q : Nat) (eoff : Int) : Dyadic :=
  if p = 0 ∨ q = 0 then { m := 0, e := 0 } else
  let n := p * 2 ^ 124 / q
  let r := p * 2 ^ 124 % q
  let L := natLog2 n
  if L ≤ 52 then { m := n, e := eoff - 124 } else
  let shift := L - 52
  let m0 := n / 2 ^ shift
  let t := n % 2 ^ shift
  let twice := 2 * (t * q + r)
  let bound := 2 ^ shift * q
  let m := if bound < twice ∨ (twice = bound ∧ m0 % 2 = 1) then m0 + 1 else m0
  { m := m, e := eoff + (shift : Int) - 124 }

/-- The f64 value of a u64 (`x as f64`): round-to-nearest conversion. -/
def f64OfU64 (x : Nat) : Dyadic :=
  roundPosRat x 1 0

/-- Correctly rounded f64 division of two nonnegative dyadic f64 values. -/
def f64Div (a b : Dyadic) : Dyadic :=
  roundPosRat a.m b.m (a.e - b.e)

/-- The f64 literal `0.1` (the nearest f64 to 1/10). -/
def f64Tenth : Dyadic :=
  roundPosRat 1 10 0

/-- `RAYDIUM_FUSION_PROGRAM_ID` from raydium_parser.rs. -/
def RAYDIUM_FUSION_PROGRAM_ID : String := "PhoeNiXZ8ByJGLkxNfZRnkUfjvmuYqLR89jjccR8DL7"

/-- `RAYDIUM_AMM_V3_PROGRAM_ID` from raydium_parser.rs. -/
def RAYDIUM_AMM_V3_PROGRAM_ID : String := "9KEPoZmtHkcsf9wXW4c6ZTwkdq4d5JZy2QTrPJWYC72"

/-- `RAYDIUM_AMM_V4_PROGRAM_ID` from raydium_parser.rs. -/
def RAYDIUM_AMM_V4_PROGRAM_ID : String := "675kPX9MHTjS2zt1qrNpOtSzVDfZtdztM2raKPLC5Jb"

/-- Embeds `is_raydium_program` (raydium_parser.rs). -/
def is_raydium_program (program_id : String) : Bool :=
  program_id = RAYDIUM_FUSION_PROGRAM_ID ∨ program_id = RAYDIUM_AMM_V3_PROGRAM_ID ∨
    program_id = RAYDIUM_AMM_V4_PROGRAM_ID

/-- Embeds `infer_swap_direction_raydium` (raydium_parser.rs): `"buy"` when
either amount is zero, else `"sell"` exactly when the f64 ratio
`amount_out as f64 / amount_in as f64` is `< 0.1`. -/
def infer_swap_direction_raydium (amount_in amount_out : Nat) : String :=
  if amount_in = 0 ∨ amount_out = 0 then "buy"
  else if dyLt (f64Div (f64OfU64 amount_out) (f64OfU64 amount_in)) f64Tenth then "sell"
  else "buy"

/-- Embeds `parse_raydium_swap` (raydium_parser.rs). -/
def parse_raydium_swap (slot : Int) (block_time : Option Int) (tx : TransactionRef)
    (ix : InstructionRef) : Option BondingCurveTrade :=
  if ix.data.length < 17 then none else
  match read_u64_le (ix.data.drop 1) with
  | none => none
  | some amount_in =>
    match read_u64_le (ix.data.drop 9) with
    | none => none
    | some amount_out =>
      let direction := infer_swap_direction_raydium amount_in amount_out
      if ix.accounts.length < 3 then none else
      match ix.accounts.get? 0 with
      | none => none
      | some trader_idx =>
        match tx.message.account_keys.get? trader_idx with
        | none => none
        | some trader =>
          let mint_pubkey := "raydium_pool_" ++ trader.take (min trader.length 8)
          let price := if amount_out = 0 then 0 else amount_in / amount_out
          some { signature := tx.signature
                 slot := slot
                 block_time := block_time
                 mint_pubkey := mint_pubkey
                 trader := trader
                 side := direction
                 token_amount := i64OfU64 amount_out
                 sol_amount := i64OfU64 amount_in
                 price_nanos_per_token := i64OfU64 price
                 tx_index := tx.index
                 ix_index := ix.index }

/-- Embeds `extract_raydium_trades_from_block` (raydium_parser.rs). -/
def extract_raydium_trades_from_block (block : BlockRef) : List BondingCurveTrade :=
  let block_time := block.blockTime
  (instructionsOf block).filterMap (fun p =>
    if ¬ is_raydium_program p.2.program_id then none
    else parse_raydium_swap block.slot block_time p.1 p.2)

/-- `METEORA_DLMM_PROGRAM_ID` from meteora_parser.rs. -/
def METEORA_DLMM_PROGRAM_ID : String := "LBUZKhRxPF3XUpBCjp4YeC6BNhu2nqBDt16ymccEZLo"

/-- `DLMM_SWAP_V2` from meteora_parser.rs. -/
def DLMM_SWAP_V2 : Nat := 22

/-- Embeds `infer_dlmm_version` (meteora_parser.rs): v2 when the
instruction has more than 8 accounts or carries the v2 discriminator. -/
def infer_dlmm_version (ix : InstructionRef) (discriminator : Nat) : Nat :=
  if 8 < ix.accounts.length ∨ discriminator = DLMM_SWAP_V2 then 2 else 1

/-- Embeds `infer_dlmm_direction` (meteora_parser.rs); the same rule as
`infer_swap_direction_raydium`. -/
def infer_dlmm_direction (amount_in amount_out : Nat) : String :=
  if amount_in = 0 ∨ amount_out = 0 then "buy"
  else if dyLt (f64Div (f64OfU64 amount_out) (f64OfU64 amount_in)) f64Tenth then "sell"
  else "buy"

/-- Embeds `parse_meteora_swap` (meteora_parser.rs).  The source also
computes v1/v2 bin metadata (`parse_meteora_v1_metadata` /
`parse_meteora_v2_metadata`) and immediately discards it; that discarded
computation has no effect on the returned trade and is not repeated
here. -/
def parse_meteora_swap (slot : Int) (block_time : Option Int) (tx : TransactionRef)
    (ix : InstructionRef) : Option BondingCurveTrade :=
  if ix.data.length < 17 then none else
  match read_u64_le (ix.data.drop 1) with
  | none => none
  | some amount_in =>
    match read_u64_le (ix.data.drop 9) with
    | none => none
    | some amount_out =>
      match ix.accounts.get? 0 with
      | none => none
      | some trader_idx =>
        match tx.message.account_keys.get? trader_idx with
        | none => none
        | some trader =>
          match ix.accounts.get? 1 with
          | none => none
          | some pool_idx =>
            match tx.message.account_keys.get? pool_idx with
            | none => none
            | some pool_id =>
              let direction := infer_dlmm_direction amount_in amount_out
              let price := if amount_out = 0 then 0 else amount_in / amount_out
              some { signature := tx.signature
                     slot := slot
                     block_time := block_time
                     mint_pubkey := pool_id
                     trader := trader
                     side := direction
                     token_amount := i64OfU64 amount_out
                     sol_amount := i64OfU64 amount_in
                     price_nanos_per_token := i64OfU64 price
                     tx_index := tx.index
                     ix_index := ix.index }

/-- Embeds `extract_meteora_trades_from_block` (meteora_parser.rs). -/
def extract_meteora_trades_from_block (block : BlockRef) : List BondingCurveTrade :=
  let block_time := block.blockTime
  (instructionsOf block).filterMap (fun p =>
    if p.2.program_id ≠ METEORA_DLMM_PROGRAM_ID then none
    else parse_meteora_swap block.slot block_time p.1 p.2)

/-- The database state the writer mutates, embedding the tables touched by
the writer loop: `token_transfers`, `bonding_curve_trades`, `balances`,
`candles`, `indexer_events` and the `last_processed_slot` singleton.
Event rows are embedded as their `(topic, mint_pubkey)` pair; the JSON
payload has no effect on any claim and is not modelled. -/
structure Db where
  transfers : List TokenTransfer
  trades : List BondingCurveTrade
  balances : List ((String × String) × Int)
  candles : List Candle
  events : List (String × Option String)
  cursor : Option Int
deriving DecidableEq, Repr

/-- The empty database. -/
def emptyDb : Db :=
  { transfers := [], trades := [], balances := [], candles := [], events := [], cursor := none }

/-- One row of `insert_transfers` (db.rs): `INSERT ... ON CONFLICT
(signature, ix_index) DO NOTHING`. -/
def insertTransferRow (rows : List TokenTransfer) (t : TokenTransfer) : List TokenTransfer :=
  if rows.any (fun r => r.signature = t.signature ∧ r.ix_index = t.ix_index) then rows
  else rows ++ [t]

/-- Embeds `insert_transfers` (db.rs): row-by-row idempotent insert. -/
def db_insert_transfers (db : Db) (ts : List TokenTransfer) : Db :=
  { db with transfers := ts.foldl insertTransferRow db.transfers }

/-- One row of `insert_bonding_curve_trades` (db.rs): `INSERT ... ON
CONFLICT (signature, ix_index) DO NOTHING`. -/
def insertTradeRow (rows : List BondingCurveTrade) (t : BondingCurveTrade) :
    List BondingCurveTrade :=
  if rows.any (fun r => r.signature = t.signature ∧ r.ix_index = t.ix_index) then rows
  else rows ++ [t]

/-- Embeds `insert_bonding_curve_trades` (db.rs). -/
def db_insert_trades (db : Db) (ts : List BondingCurveTrade) : Db :=
  { db with trades := ts.foldl insertTradeRow db.trades }

/-- Embeds `apply_delta` (db.rs) on the `balances` table: upsert of
`(wallet, mint)` with `amount = COALESCE(existing, 0) + delta`. -/
def balApply (bals : List ((String × String) × Int)) (wallet mint : String) (delta : Int) :
    List ((String × String) × Int) :=
  if bals.any (fun b => b.1 = (wallet, mint)) then
    bals.map (fun b => if b.1 = (wallet, mint) then (b.1, b.2 + delta) else b)
  else bals ++ [((wallet, mint), delta)]

/-- Embeds `update_balances_for_transfers` (db.rs): per transfer, the
source loses `amount` and the destination gains `amount`. -/
def db_update_balances (db : Db) (ts : List TokenTransfer) : Db :=
  { db with
    balances := ts.foldl (fun bs t =>
      balApply (balApply bs t.source_owner t.mint_pubkey (-t.amount))
        t.dest_owner t.mint_pubkey t.amount) db.balances }

/-- Embeds `insert_event` (db.rs) at the granularity the claims need:
append the `(topic, mint)` row to the event log. -/
def db_insert_event (db : Db) (topic : String) (mint : Option String) : Db :=
  { db with events := db.events ++ [(topic, mint)] }

/-- Key equality of the `candles` unique index `(mint_pubkey,
timeframe_secs, bucket_start)`. -/
def sameCandleKey (a b : Candle) : Bool :=
  a.mint_pubkey = b.mint_pubkey ∧ a.timeframe_secs = b.timeframe_secs ∧
    a.bucket_start = b.bucket_start

/-- The `DO UPDATE SET` arm of `upsert_candle` (db.rs): `high = GREATEST`,
`low = LEAST`, `close` overwritten, volumes and count summed; `open` (and
the key columns) keep the existing row's values. -/
def mergeCandle (old c : Candle) : Candle :=
  { old with
    high := max old.high c.high
    low := min old.low c.low
    close := c.close
    volume_token := old.volume_token + c.volume_token
    volume_sol := old.volume_sol + c.volume_sol
    trades_count := old.trades_count + c.trades_count }

/-- Embeds `upsert_candle` (db.rs): insert the candidate, or merge it into
the row with the same `(mint_pubkey, timeframe_secs, bucket_start)`. -/
def upsert_candle_rows (rows : List Candle) (c : Candle) : List Candle :=
  if rows.any (fun r => sameCandleKey r c) then
    rows.map (fun r => if sameCandleKey r c then mergeCandle r c else r)
  else rows ++ [c]

/-- `upsert_candle` on the whole database state. -/
def db_upsert_candle (db : Db) (c : Candle) : Db :=
  { db with candles := upsert_candle_rows db.candles c }

/-- The fallible database calls of one writer-loop iteration (main.rs).
`upsertCandle k` is the candle upsert for the `k`-th trade of the
concatenated trade list.  Event inserts only log on failure and change no
control flow, so they are not failure points of the model. -/
inductive DbStep where
  | insertTransfers
  | updateBalances
  | insertPump
  | insertRaydium
  | insertMeteora
  | upsertCandle (k : Nat)
  | setCursor
deriving DecidableEq, Repr

/-- The transfer section of the writer loop (main.rs lines 55-82):
insert transfers, apply balance deltas, then one `"transfers"` event per
row; a failed insert or balance update aborts the block (`continue`),
carrying the state written so far. -/
def sectTransfers (ok : DbStep → Bool) (db : Db) (ts : List TokenTransfer) : Except Db Db :=
  if ts.isEmpty then Except.ok db else
  if ¬ ok DbStep.insertTransfers then Except.error db else
  let db1 := db_insert_transfers db ts
  if ¬ ok DbStep.updateBalances then Except.error db1 else
  let db2 := db_update_balances db1 ts
  Except.ok (ts.foldl (fun d t => db_insert_event d "transfers" (some t.mint_pubkey)) db2)

/-- A venue section of the writer loop (main.rs lines 84-160): insert the
venue's trades, then one `"bonding"` event per row; a failed insert
aborts the block. -/
def sectVenue (ok : DbStep → Bool) (step : DbStep) (db : Db)
    (ts : List BondingCurveTrade) : Except Db Db :=
  if ts.isEmpty then Except.ok db else
  if ¬ ok step then Except.error db else
  let db1 := db_insert_trades db ts
  Except.ok (ts.foldl (fun d t => db_insert_event d "bonding" (some t.mint_pubkey)) db1)

/-- The candle candidate built for a trade (main.rs lines 166-180);
`bt` is the trade's block time and the bucket is `bt - bt % 60` with
Rust's truncated `%`. -/
def candleOf (t : BondingCurveTrade) (bt : Int) : Candle :=
  { mint_pubkey := t.mint_pubkey
    timeframe_secs := 60
    bucket_start := bt - Int.tmod bt 60
    open_ := t.price_nanos_per_token
    high := t.price_nanos_per_token
    low := t.price_nanos_per_token
    close := t.price_nanos_per_token
    volume_token := t.token_amount
    volume_sol := t.sol_amount
    trades_count := 1 }

/-- One iteration of the candle loop (main.rs lines 164-202) for the
`k`-th trade: skip trades without a block time; on upsert failure
`continue` to the next trade (only this trade's event is skipped); on
success emit a `"candles"` event. -/
def candleStep (ok : DbStep → Bool) (d : Db) (kt : Nat × BondingCurveTrade) : Db :=
  match kt.2.block_time with
  | none => d
  | some bt =>
    let c := candleOf kt.2 bt
    if ok (DbStep.upsertCandle kt.1) then
      db_insert_event (db_upsert_candle d c) "candles" (some kt.2.mint_pubkey)
    else d

/-- The candle loop over the concatenated trades of a block. -/
def candleLoop (ok : DbStep → Bool) (db : Db) (ts : List BondingCurveTrade) : Db :=
  ts.enum.foldl (candleStep ok) db

/-- The sequence of batch persistence sections of one writer-loop
iteration (main.rs lines 55-160), short-circuiting on the first failing
section with the state written so far. -/
def writerPhase1 (ok : DbStep → Bool) (db : Db) (transfers : List TokenTransfer)
    (pump ray met : List BondingCurveTrade) : Except Db Db := do
  let db1 ← sectTransfers ok db transfers
  let db2 ← sectVenue ok DbStep.insertPump db1 pump
  let db3 ← sectVenue ok DbStep.insertRaydium db2 ray
  sectVenue ok DbStep.insertMeteora db3 met

/-- Embeds one iteration of the writer loop (main.rs lines 45-207) on a
received block: decode, persist transfer and trade batches (each failure
aborting the block), run the candle loop, then advance the cursor.  `ok`
tells which database calls succeed. -/
def processBlock (ok : DbStep → Bool) (mint_whitelist : List String) (db : Db)
    (block : BlockRef) : Db :=
  match writerPhase1 ok db (extract_transfers_from_block block mint_whitelist)
      (extract_pump_trades_from_block block) (extract_raydium_trades_from_block block)
      (extract_meteora_trades_from_block block) with
  | Except.error d => d
  | Except.ok d =>
    let d2 := candleLoop ok d (extract_pump_trades_from_block block ++
      extract_raydium_trades_from_block block ++ extract_meteora_trades_from_block block)
    if ok DbStep.setCursor then { d2 with cursor := some block.slot } else d2

/-- Whether one of the batch persistence steps is reached and fails on
the given decoded batches, which makes the writer loop `continue` before
the candle loop and the cursor write. -/
def writerAbortsOn (ok : DbStep → Bool) (transfers : List TokenTransfer)
    (pump ray met : List BondingCurveTrade) : Bool :=
  (¬ transfers.isEmpty ∧ (¬ ok DbStep.insertTransfers ∨ ¬ ok DbStep.updateBalances)) ∨
    (¬ pump.isEmpty ∧ ¬ ok DbStep.insertPump) ∨
    (¬ ray.isEmpty ∧ ¬ ok DbStep.insertRaydium) ∨
    (¬ met.isEmpty ∧ ¬ ok DbStep.insertMeteora)

/-- `writerAbortsOn` applied to the batches the writer decodes from a
block. -/
def writerAborts (ok : DbStep → Bool) (mint_whitelist : List String) (block : BlockRef) :
    Bool :=
  writerAbortsOn ok (extract_transfers_from_block block mint_whitelist)
    (extract_pump_trades_from_block block) (extract_raydium_trades_from_block block)
    (extract_meteora_trades_from_block block)

/-- Embeds `FirehoseConfig` (config.rs) as the ingestion controller uses
it. -/
structure FirehoseConfig where
  from_slot : Option Int
deriving DecidableEq, Repr

/-- Embeds the `FirehoseClient` state (firehose.rs): the configured start
and the last slot successfully pushed onto the block queue. -/
structure FirehoseClient where
  from_slot : Option Int
  last_slot : Option Int
deriving DecidableEq, Repr

/-- Embeds `FirehoseClient::new` (firehose.rs): `last_slot` starts at the
configured `from_slot`. -/
def FirehoseClient.new (config : FirehoseConfig) : FirehoseClient :=
  { from_slot := config.from_slot, last_slot := config.from_slot }

/-- The starting slot computed by `connect_and_stream` (firehose.rs):
`self.last_slot.unwrap_or(self.config.from_slot.unwrap_or(0))`. -/
def connectStartSlot (c : FirehoseClient) : Int :=
  c.last_slot.getD (c.from_slot.getD 0)

/-- The streaming loop of `stream_from_jetstreamer` (firehose.rs) from
`cur`, pushing `n` consecutive blocks before the stream fails: each
successful push records its slot in `last_slot` and advances by one. -/
def streamSteps (c : FirehoseClient) (cur : Int) : Nat → List Int × FirehoseClient
  | 0 => ([], c)
  | Nat.succ n =>
    let c1 := { c with last_slot := some cur }
    let rest := streamSteps c1 (cur + 1) n
    (cur :: rest.1, rest.2)

/-- One `connect_and_stream` attempt (firehose.rs) that pushes `n` blocks
before the stream errors: the slots pushed and the client state at
reconnect time. -/
def connectAndStreamN (c : FirehoseClient) (n : Nat) : List Int × FirehoseClient :=
  streamSteps c (connectStartSlot c) n

/-- Whether `accounts[i]` exists and is a valid index into
`account_keys`. -/
def idxInRange (keys : List String) (accounts : List Nat) (i : Nat) : Bool :=
  match accounts.get? i with
  | some a => decide (a < keys.length)
  | none => false

/-- The malformedness conditions of an SPL instruction, variant by
variant: too few data bytes for the variant, too few account indices, a
referenced account index out of range of `account_keys`, or no / an
unknown discriminator. -/
def splMalformed (tx : TransactionRef) (ix : InstructionRef) : Bool :=
  match ix.data.get? 0 with
  | none => true
  | some d =>
    let keys := tx.message.account_keys
    if d = 3 then
      decide (ix.accounts.length < 3) || decide (ix.data.length < 9) ||
        !(idxInRange keys ix.accounts 0) || !(idxInRange keys ix.accounts 2)
    else if d = 12 then
      decide (ix.accounts.length < 3) || decide (ix.data.length < 10) ||
        !(idxInRange keys ix.accounts 0) || !(idxInRange keys ix.accounts 1) ||
        !(idxInRange keys ix.accounts 2)
    else if d = 7 then
      decide (ix.accounts.length < 2) || decide (ix.data.length < 9) ||
        !(idxInRange keys ix.accounts 0) || !(idxInRange keys ix.accounts 1)
    else if d = 13 then
      decide (ix.accounts.length < 2) || decide (ix.data.length < 10) ||
        !(idxInRange keys ix.accounts 0) || !(idxInRange keys ix.accounts 1)
    else if d = 8 then
      decide (ix.accounts.length < 2) || decide (ix.data.length < 9) ||
        !(idxInRange keys ix.accounts 0) || !(idxInRange keys ix.accounts 1)
    else if d = 14 then
      decide (ix.accounts.length < 2) || decide (ix.data.length < 10) ||
        !(idxInRange keys ix.accounts 0) || !(idxInRange keys ix.accounts 1)
    else true

/-- A block whose instruction data really consists of bytes (each entry
below 256), as every block delivered by the firehose does. -/
def BlockWF (b : BlockRef) : Prop :=
  ∀ tx ∈ b.transactions, ∀ ix ∈ tx.instructions, ∀ byte ∈ ix.data, byte < 256

/-- A Raydium swap instruction payload: discriminator 9, then
`amount_in = 100` and `amount_out = 1000` as little-endian u64. -/
def rayIxData : List Nat := [9] ++ [100, 0, 0, 0, 0, 0, 0, 0] ++ [232, 3, 0, 0, 0, 0, 0, 0]

/-- Concrete block for the C1 counterexample: two Raydium swaps with a
block time, so the candle loop runs twice. -/
def c1Block : BlockRef :=
  { slot := 500
    block_time_unix := some 90
    transactions := [
      { signature := "t1"
        index := 0
        message := { account_keys := ["trader_one", "k1", "k2"] }
        instructions := [
          { program_id := RAYDIUM_AMM_V4_PROGRAM_ID
            accounts := [0, 1, 2]
            data := rayIxData
            index := 0 } ] },
      { signature := "t2"
        index := 1
        message := { account_keys := ["trader_two", "k1", "k2"] }
        instructions := [
          { program_id := RAYDIUM_AMM_V4_PROGRAM_ID
            accounts := [0, 1, 2]
            data := rayIxData
            index := 0 } ] } ] }

/-- Failure injection for the C1 counterexample: only the candle upsert
of the first trade fails. -/
def c1Oracle : DbStep → Bool
  | DbStep.upsertCandle 0 => false
  | _ => true

/-- First trade of the S5 candle-merge scenario: price 100, token amount
1, in the 60-second bucket starting at 60. -/
def c2Trade1 : BondingCurveTrade :=
  { signature := "s1"
    slot := 7
    block_time := some 90
    mint_pubkey := "mint_x"
    trader := "w"
    side := "buy"
    token_amount := 1
    sol_amount := 10
    price_nanos_per_token := 100
    tx_index := 0
    ix_index := 0 }

/-- Second trade of the S5 candle-merge scenario: price 120, token amount
2, same bucket. -/
def c2Trade2 : BondingCurveTrade :=
  { c2Trade1 with
    signature := "s2"
    price_nanos_per_token := 120
    token_amount := 2
    sol_amount := 20 }

/-- Concrete block for the C3 witness: one Raydium swap. -/
def c3Block : BlockRef :=
  { slot := 41
    block_time_unix := some 120
    transactions := [
      { signature := "c3sig"
        index := 0
        message := { account_keys := ["c3_trader", "k1", "k2"] }
        instructions := [
          { program_id := RAYDIUM_AMM_V3_PROGRAM_ID
            accounts := [0, 1, 2]
            data := rayIxData
            index := 0 } ] } ] }

/-- Concrete transaction for the C4 witness. -/
def c4Tx : TransactionRef :=
  { signature := "c4sig"
    index := 0
    message := { account_keys := ["src_ata", "mint_X", "dst_ata", "owner"] }
    instructions := [] }

/-- Concrete TransferChecked instruction (discriminator 12) for the C4
witness, amount 1000000, decimals 6. -/
def c4IxChecked : InstructionRef :=
  { program_id := SPL_TOKEN_PROGRAM_ID
    accounts := [0, 1, 2, 3]
    data := [12] ++ [64, 66, 15, 0, 0, 0, 0, 0] ++ [6]
    index := 0 }

/-- Concrete unchecked Transfer instruction (discriminator 3) for the C4
witness, amount 5. -/
def c4IxPlain : InstructionRef :=
  { program_id := SPL_TOKEN_PROGRAM_ID
    accounts := [0, 1, 2]
    data := [3] ++ [5, 0, 0, 0, 0, 0, 0, 0]
    index := 1 }

/-- Concrete block used to instantiate C4 at the block level. -/
def c4Block : BlockRef :=
  { slot := 100
    block_time_unix := some 1000
    transactions := [ { c4Tx with instructions := [c4IxChecked, c4IxPlain] } ] }

/-- Firehose configuration for the C5 counterexample. -/
def c5Config : FirehoseConfig := { from_slot := some 100 }

/-- Concrete DLMM swap instruction for the C6 witness, carrying the S4
amounts `amount_in = 10_000_000_000`, `amount_out = 50_000_000`. -/
def c6IxS4 : InstructionRef :=
  { program_id := RAYDIUM_AMM_V4_PROGRAM_ID
    accounts := [0, 1, 2, 3, 4, 5]
    data := [9] ++ [0, 228, 11, 84, 2, 0, 0, 0] ++ [128, 240, 250, 2, 0, 0, 0, 0]
    index := 0 }

/-- Concrete transaction for the C6 witness. -/
def c6Tx : TransactionRef :=
  { signature := "c6sig"
    index := 0
    message := { account_keys := ["c6trader", "tokprog", "pool", "auth", "ta", "tb"] }
    instructions := [c6IxS4] }

/-- Concrete Raydium swap instruction for the C7 counterexample. -/
def c7Ix : InstructionRef :=
  { program_id := RAYDIUM_FUSION_PROGRAM_ID
    accounts := [0, 1, 2]
    data := rayIxData
    index := 0 }

/-- Concrete transaction for the C7 counterexample, trader key
`"trader_wallet"`. -/
def c7Tx : TransactionRef :=
  { signature := "sig7"
    index := 0
    message := { account_keys := ["trader_wallet", "k1", "k2"] }
    instructions := [c7Ix] }

/-- Concrete block for the C7 counterexample. -/
def c7Block : BlockRef :=
  { slot := 11
    block_time_unix := some 60
    transactions := [c7Tx] }

/-- Concrete block for the C8 counterexample: a TransferChecked whose
u64 amount is `2^63`. -/
def c8Block : BlockRef :=
  { slot := 9
    block_time_unix := some 1000
    transactions := [
      { signature := "sig8"
        index := 0
        message := { account_keys := ["s", "m", "d", "o"] }
        instructions := [
          { program_id := SPL_TOKEN_PROGRAM_ID
            accounts := [0, 1, 2, 3]
            data := [12] ++ [0, 0, 0, 0, 0, 0, 0, 128] ++ [6]
            index := 0 } ] } ] }

/-- Concrete block for the C8 witness: a TransferChecked with the small
amount 1000000. -/
def c8SmallBlock : BlockRef :=
  { slot := 10
    block_time_unix := some 1000
    transactions := [
      { signature := "sig8b"
        index := 0
        message := { account_keys := ["s", "m", "d", "o"] }
        instructions := [
          { program_id := SPL_TOKEN_PROGRAM_ID
            accounts := [0, 1, 2, 3]
            data := [12] ++ [64, 66, 15, 0, 0, 0, 0, 0] ++ [6]
            index := 0 } ] } ] }

/-- Concrete unchecked Transfer instruction for the C9 counterexample:
its account-index list contains 7, out of range of the two account keys,
in a position the decoder does not read. -/
def c9OorIx : InstructionRef :=
  { program_id := SPL_TOKEN_PROGRAM_ID
    accounts := [0, 7, 1]
    data := [3] ++ [5, 0, 0, 0, 0, 0, 0, 0]
    index := 0 }

/-- Concrete transaction for the C9 counterexample (two account keys). -/
def c9OorTx : TransactionRef :=
  { signature := "sig9"
    index := 0
    message := { account_keys := ["a", "b"] }
    instructions := [c9OorIx] }

/-- Concrete block for the C9 counterexample. -/
def c9Block : BlockRef :=
  { slot := 3
    block_time_unix := none
    transactions := [c9OorTx] }

/-- Concrete malformed instruction for the C9 witness: TransferChecked
with only one account index. -/
def c9ShortIx : InstructionRef :=
  { program_id := SPL_TOKEN_PROGRAM_ID
    accounts := [0]
    data := [12] ++ [5, 0, 0, 0, 0, 0, 0, 0] ++ [6]
    index := 0 }

/-- Concrete transaction for the C9 witness. -/
def c9Tx : TransactionRef :=
  { signature := "c9sig"
    index := 0
    message := { account_keys := ["a", "b", "c"] }
    instructions := [c9ShortIx] }

/-- Concrete transaction for the C10 witness. -/
def c10Tx : TransactionRef :=
  { signature := "c10sig"
    index := 2
    message := { account_keys := ["ata_one", "ata_two", "ata_three"] }
    instructions := [] }

/-- Concrete unchecked Transfer instruction for the C10 witness. -/
def c10Ix : InstructionRef :=
  { program_id := SPL_TOKEN_PROGRAM_ID
    accounts := [2, 0, 1]
    data := [3] ++ [232, 3, 0, 0, 0, 0, 0, 0]
    index := 4 }

/-- Concrete block for the C10 witness. -/
def c10Block : BlockRef :=
  { slot := 77
    block_time_unix := some 30
    transactions := [c10Tx] }

/-- Concrete DLMM swap instruction for the C6 witness (v1 discriminator,
`amount_in = 100`, `amount_out = 1000`). -/
def c6MetIx : InstructionRef :=
  { program_id := METEORA_DLMM_PROGRAM_ID
    accounts := [0, 1]
    data := [11] ++ [100, 0, 0, 0, 0, 0, 0, 0] ++ [232, 3, 0, 0, 0, 0, 0, 0]
    index := 0 }

/-- Concrete transaction for the C6 DLMM witness. -/
def c6MetTx : TransactionRef :=
  { signature := "c6msig"
    index := 1
    message := { account_keys := ["mtrader", "mpool"] }
    instructions := [c6MetIx] }

/-- An empty block, used to instantiate decoder calls whose block
argument is irrelevant. -/
def c9WitnessBlock : BlockRef :=
  { slot := 0
    block_time_unix := none
    transactions := [c9Tx] }

theorem read_u64_le_some_length {bs : List Nat} {a : Nat} (h : read_u64_le bs = some a) :
    8 ≤ bs.length := by
  unfold read_u64_le at h
  split at h
  · exact absurd h (by simp)
  · omega

theorem leValue_lt {l : List Nat} (h : ∀ b ∈ l, b < 256) : leValue l < 256 ^ l.length := by
  induction l with
  | nil => simp [leValue]
  | cons b bs ih =>
    have hb : b < 256 := h b (by simp)
    have hbs : leValue bs < 256 ^ bs.length := ih (fun x hx => h x (by simp [hx]))
    simp only [leValue, List.length_cons, pow_succ]
    nlinarith

theorem read_u64_le_lt {bs : List Nat} {a : Nat} (hwf : ∀ b ∈ bs, b < 256)
    (h : read_u64_le bs = some a) : a < 2 ^ 64 := by
  unfold read_u64_le at h
  split at h
  · exact absurd h (by simp)
  next hlen =>
    have h8 : (bs.take 8).length = 8 := by
      simp [List.length_take]
      omega
    have := leValue_lt (l := bs.take 8) (fun b hb => hwf b (List.take_subset 8 bs hb))
    rw [h8] at this
    have ha : a = leValue (bs.take 8) := by
      simpa using h.symm
    rw [ha]
    calc leValue (bs.take 8) < 256 ^ 8 := this
    _ = 2 ^ 64 := by norm_num

theorem i64OfU64_bounds {a : Nat} (h : a < 2 ^ 64) :
    -(2 ^ 63) ≤ i64OfU64 a ∧ i64OfU64 a < 2 ^ 63 ∧ (0 ≤ i64OfU64 a ↔ a < 2 ^ 63) := by
  unfold i64OfU64
  split <;> omega

theorem parse_transfer_inv {block : BlockRef} {tx : TransactionRef} {ix : InstructionRef}
    {wl : List String} {t : TokenTransfer}
    (h : parse_transfer block tx ix wl = some t) :
    3 ≤ ix.accounts.length ∧ wl = [] ∧
    ∃ i0 i2 k0 k2 a,
      ix.accounts.get? 0 = some i0 ∧ ix.accounts.get? 2 = some i2 ∧
      tx.message.account_keys.get? i0 = some k0 ∧
      tx.message.account_keys.get? i2 = some k2 ∧
      read_u64_le (ix.data.drop 1) = some a ∧
      t = { signature := tx.signature
            slot := block.slot
            block_time := block.blockTime
            mint_pubkey := "unknown_mint"
            source_owner := k0
            dest_owner := k2
            source_ata := k0
            dest_ata := k2
            amount := i64OfU64 a
            tx_index := tx.index
            ix_index := ix.index } := by
  unfold parse_transfer at h
  split at h
  · exact absurd h (by simp)
  next hlen =>
    split at h
    next i0 i2 h0 h2 =>
      split at h
      next k0 k2 hk0 hk2 =>
        split at h
        next a ha =>
          split at h
          · exact absurd h (by simp)
          next hwl =>
            push_neg at hwl hlen
            exact ⟨hlen, hwl, i0, i2, k0, k2, a, h0, h2, hk0, hk2, ha, (Option.some.inj h).symm⟩
        · exact absurd h (by simp)
      · exact absurd h (by simp)
    · exact absurd h (by simp)

theorem parse_transfer_checked_inv {block : BlockRef} {tx : TransactionRef}
    {ix : InstructionRef} {wl : List String} {t : TokenTransfer}
    (h : parse_transfer_checked block tx ix wl = some t) :
    3 ≤ ix.accounts.length ∧ 10 ≤ ix.data.length ∧
    ∃ i0 i1 i2 k0 km k2 a,
      ix.accounts.get? 0 = some i0 ∧ ix.accounts.get? 1 = some i1 ∧
      ix.accounts.get? 2 = some i2 ∧
      tx.message.account_keys.get? i0 = some k0 ∧
      tx.message.account_keys.get? i1 = some km ∧
      tx.message.account_keys.get? i2 = some k2 ∧
      (wl ≠ [] → km ∈ wl) ∧
      read_u64_le (ix.data.drop 1) = some a ∧
      t = { signature := tx.signature
            slot := block.slot
            block_time := block.blockTime
            mint_pubkey := km
            source_owner := k0
            dest_owner := k2
            source_ata := k0
            dest_ata := k2
            amount := i64OfU64 a
            tx_index := tx.index
            ix_index := ix.index } := by
  unfold parse_transfer_checked at h
  split at h
  · exact absurd h (by simp)
  next hlen =>
    push_neg at hlen
    split at h
    next i0 i1 i2 h0 h1 h2 =>
      split at h
      next k0 km k2 hk0 hkm hk2 =>
        split at h
        · exact absurd h (by simp)
        next hwl =>
          split at h
          next a ha =>
            push_neg at hwl
            refine ⟨by omega, by omega, i0, i1, i2, k0, km, k2, a,
              h0, h1, h2, hk0, hkm, hk2, ?_, ha, (Option.some.inj h).symm⟩
            intro hne
            by_contra hnotin
            exact hnotin (hwl hne)
          · exact absurd h (by simp)
      · exact absurd h (by simp)
    · exact absurd h (by simp)

theorem parse_mint_to_inv {block : BlockRef} {tx : TransactionRef}
    {ix : InstructionRef} {wl : List String} {t : TokenTransfer}
    (h : parse_mint_to block tx ix wl = some t) :
    2 ≤ ix.accounts.length ∧ 9 ≤ ix.data.length ∧
    ∃ i0 i1 km kd a,
      ix.accounts.get? 0 = some i0 ∧ ix.accounts.get? 1 = some i1 ∧
      tx.message.account_keys.get? i0 = some km ∧
      tx.message.account_keys.get? i1 = some kd ∧
      (wl ≠ [] → km ∈ wl) ∧
      read_u64_le (ix.data.drop 1) = some a ∧
      t = { signature := tx.signature
            slot := block.slot
            block_time := block.blockTime
            mint_pubkey := km
            source_owner := "system"
            dest_owner := kd
            source_ata := "system"
            dest_ata := kd
            amount := i64OfU64 a
            tx_index := tx.index
            ix_index := ix.index } := by
  unfold parse_mint_to at h
  split at h
  · exact absurd h (by simp)
  next hlen =>
    push_neg at hlen
    split at h
    next i0 i1 h0 h1 =>
      split at h
      next km kd hkm hkd =>
        split at h
        · exact absurd h (by simp)
        next hwl =>
          split at h
          next a ha =>
            push_neg at hwl
            exact ⟨by omega, by omega, i0, i1, km, kd, a,
              h0, h1, hkm, hkd, hwl, ha, (Option.some.inj h).symm⟩
          · exact absurd h (by simp)
      · exact absurd h (by simp)
    · exact absurd h (by simp)

theorem parse_mint_to_checked_inv {block : BlockRef} {tx : TransactionRef}
    {ix : InstructionRef} {wl : List String} {t : TokenTransfer}
    (h : parse_mint_to_checked block tx ix wl = some t) :
    2 ≤ ix.accounts.length ∧ 10 ≤ ix.data.length ∧
    ∃ i0 i1 km kd a,
      ix.accounts.get? 0 = some i0 ∧ ix.accounts.get? 1 = some i1 ∧
      tx.message.account_keys.get? i0 = some km ∧
      tx.message.account_keys.get? i1 = some kd ∧
      (wl ≠ [] → km ∈ wl) ∧
      read_u64_le (ix.data.drop 1) = some a ∧
      t = { signature := tx.signature
            slot := block.slot
            block_time := block.blockTime
            mint_pubkey := km
            source_owner := "system"
            dest_owner := kd
            source_ata := "system"
            dest_ata := kd
            amount := i64OfU64 a
            tx_index := tx.index
            ix_index := ix.index } := by
  unfold parse_mint_to_checked at h
  split at h
  · exact absurd h (by simp)
  next hlen =>
    push_neg at hlen
    split at h
    next i0 i1 h0 h1 =>
      split at h
      next km kd hkm hkd =>
        split at h
        · exact absurd h (by simp)
        next hwl =>
          split at h
          next a ha =>
            push_neg at hwl
            exact ⟨by omega, by omega, i0, i1, km, kd, a,
              h0, h1, hkm, hkd, hwl, ha, (Option.some.inj h).symm⟩
          · exact absurd h (by simp)
      · exact absurd h (by simp)
    · exact absurd h (by simp)

theorem parse_burn_inv {block : BlockRef} {tx : TransactionRef}
    {ix : InstructionRef} {wl : List String} {t : TokenTransfer}
    (h : parse_burn block tx ix wl = some t) :
    2 ≤ ix.accounts.length ∧ 9 ≤ ix.data.length ∧
    ∃ i0 i1 ks km a,
      ix.accounts.get? 0 = some i0 ∧ ix.accounts.get? 1 = some i1 ∧
      tx.message.account_keys.get? i0 = some ks ∧
      tx.message.account_keys.get? i1 = some km ∧
      (wl ≠ [] → km ∈ wl) ∧
      read_u64_le (ix.data.drop 1) = some a ∧
      t = { signature := tx.signature
            slot := block.slot
            block_time := block.blockTime
            mint_pubkey := km
            source_owner := ks
            dest_owner := "burn"
            source_ata := ks
            dest_ata := "burn"
            amount := i64OfU64 a
            tx_index := tx.index
            ix_index := ix.index } := by
  unfold parse_burn at h
  split at h
  · exact absurd h (by simp)
  next hlen =>
    push_neg at hlen
    split at h
    next i0 i1 h0 h1 =>
      split at h
      next ks km hks hkm =>
        split at h
        · exact absurd h (by simp)
        next hwl =>
          split at h
          next a ha =>
            push_neg at hwl
            exact ⟨by omega, by omega, i0, i1, ks, km, a,
              h0, h1, hks, hkm, hwl, ha, (Option.some.inj h).symm⟩
          · exact absurd h (by simp)
      · exact absurd h (by simp)
    · exact absurd h (by simp)

theorem parse_burn_checked_inv {block : BlockRef} {tx : TransactionRef}
    {ix : InstructionRef} {wl : List String} {t : TokenTransfer}
    (h : parse_burn_checked block tx ix wl = some t) :
    2 ≤ ix.accounts.length ∧ 10 ≤ ix.data.length ∧
    ∃ i0 i1 ks km a,
      ix.accounts.get? 0 = some i0 ∧ ix.accounts.get? 1 = some i1 ∧
      tx.message.account_keys.get? i0 = some ks ∧
      tx.message.account_keys.get? i1 = some km ∧
      (wl ≠ [] → km ∈ wl) ∧
      read_u64_le (ix.data.drop 1) = some a ∧
      t = { signature := tx.signature
            slot := block.slot
            block_time := block.blockTime
            mint_pubkey := km
            source_owner := ks
            dest_owner := "burn"
            source_ata := ks
            dest_ata := "burn"
            amount := i64OfU64 a
            tx_index := tx.index
            ix_index := ix.index } := by
  unfold parse_burn_checked at h
  split at h
  · exact absurd h (by simp)
  next hlen =>
    push_neg at hlen
    split at h
    next i0 i1 h0 h1 =>
      split at h
      next ks km hks hkm =>
        split at h
        · exact absurd h (by simp)
        next hwl =>
          split at h
          next a ha =>
            push_neg at hwl
            exact ⟨by omega, by omega, i0, i1, ks, km, a,
              h0, h1, hks, hkm, hwl, ha, (Option.some.inj h).symm⟩
          · exact absurd h (by simp)
      · exact absurd h (by simp)
    · exact absurd h (by simp)

theorem parse_spl_transfer_inv {block : BlockRef} {tx : TransactionRef}
    {ix : InstructionRef} {wl : List String} {t : TokenTransfer}
    (h : parse_spl_transfer block tx ix wl = some t) :
    ∃ d, ix.data.get? 0 = some d ∧
      ((d = 3 ∧ parse_transfer block tx ix wl = some t) ∨
       (d = 12 ∧ parse_transfer_checked block tx ix wl = some t) ∨
       (d = 7 ∧ parse_mint_to block tx ix wl = some t) ∨
       (d = 13 ∧ parse_mint_to_checked block tx ix wl = some t) ∨
       (d = 8 ∧ parse_burn block tx ix wl = some t) ∨
       (d = 14 ∧ parse_burn_checked block tx ix wl = some t)) := by
  unfold parse_spl_transfer at h
  split at h
  · exact absurd h (by simp)
  next d hd =>
    refine ⟨d, hd, ?_⟩
    split at h
    next h3 => exact Or.inl ⟨h3, h⟩
    split at h
    next h12 => exact Or.inr (Or.inl ⟨h12, h⟩)
    split at h
    next h7 => exact Or.inr (Or.inr (Or.inl ⟨h7, h⟩))
    split at h
    next h13 => exact Or.inr (Or.inr (Or.inr (Or.inl ⟨h13, h⟩)))
    split at h
    next h8 => exact Or.inr (Or.inr (Or.inr (Or.inr (Or.inl ⟨h8, h⟩))))
    split at h
    next h14 => exact Or.inr (Or.inr (Or.inr (Or.inr (Or.inr ⟨h14, h⟩))))
    · exact absurd h (by simp)

theorem mem_instructionsOf {block : BlockRef} {tx : TransactionRef} {ix : InstructionRef} :
    (tx, ix) ∈ instructionsOf block ↔ tx ∈ block.transactions ∧ ix ∈ tx.instructions := by
  unfold instructionsOf
  simp only [List.mem_flatMap, List.mem_map, Prod.mk.injEq]
  constructor
  · rintro ⟨a, ha, b, hb, rfl, rfl⟩
    exact ⟨ha, hb⟩
  · rintro ⟨ha, hb⟩
    exact ⟨tx, ha, ix, hb, rfl, rfl⟩

theorem mem_extract_transfers {block : BlockRef} {wl : List String} {t : TokenTransfer}
    (h : t ∈ extract_transfers_from_block block wl) :
    ∃ tx ix, tx ∈ block.transactions ∧ ix ∈ tx.instructions ∧
      ix.program_id = SPL_TOKEN_PROGRAM_ID ∧
      parse_spl_transfer block tx ix wl = some t := by
  unfold extract_transfers_from_block at h
  rcases List.mem_filterMap.mp h with ⟨p, hp, hf⟩
  rcases p with ⟨tx, ix⟩
  rcases mem_instructionsOf.mp hp with ⟨htx, hix⟩
  split at hf
  · exact absurd hf (by simp)
  next hprog =>
    push_neg at hprog
    exact ⟨tx, ix, htx, hix, hprog, hf⟩

theorem mem_extract_raydium {block : BlockRef} {t : BondingCurveTrade}
    (h : t ∈ extract_raydium_trades_from_block block) :
    ∃ tx ix, tx ∈ block.transactions ∧ ix ∈ tx.instructions ∧
      is_raydium_program ix.program_id = true ∧
      parse_raydium_swap block.slot block.blockTime tx ix = some t := by
  unfold extract_raydium_trades_from_block at h
  rcases List.mem_filterMap.mp h with ⟨p, hp, hf⟩
  rcases p with ⟨tx, ix⟩
  rcases mem_instructionsOf.mp hp with ⟨htx, hix⟩
  split at hf
  · exact absurd hf (by simp)
  next hprog =>
    simp only [Bool.not_eq_true] at hprog
    refine ⟨tx, ix, htx, hix, ?_, hf⟩
    revert hprog
    cases is_raydium_program ix.program_id <;> simp

theorem mem_extract_meteora {block : BlockRef} {t : BondingCurveTrade}
    (h : t ∈ extract_meteora_trades_from_block block) :
    ∃ tx ix, tx ∈ block.transactions ∧ ix ∈ tx.instructions ∧
      ix.program_id = METEORA_DLMM_PROGRAM_ID ∧
      parse_meteora_swap block.slot block.blockTime tx ix = some t := by
  unfold extract_meteora_trades_from_block at h
  rcases List.mem_filterMap.mp h with ⟨p, hp, hf⟩
  rcases p with ⟨tx, ix⟩
  rcases mem_instructionsOf.mp hp with ⟨htx, hix⟩
  split at hf
  · exact absurd hf (by simp)
  next hprog =>
    push_neg at hprog
    exact ⟨tx, ix, htx, hix, hprog, hf⟩

theorem mem_extract_pump {block : BlockRef} {t : BondingCurveTrade}
    (h : t ∈ extract_pump_trades_from_block block) :
    ∃ tx ix, tx ∈ block.transactions ∧ ix ∈ tx.instructions ∧
      (parse_buy block.slot block.blockTime tx ix = some t ∨
       parse_sell block.slot block.blockTime tx ix = some t) := by
  unfold extract_pump_trades_from_block at h
  rcases List.mem_filterMap.mp h with ⟨p, hp, hf⟩
  rcases p with ⟨tx, ix⟩
  rcases mem_instructionsOf.mp hp with ⟨htx, hix⟩
  refine ⟨tx, ix, htx, hix, ?_⟩
  split at hf
  · exact absurd hf (by simp)
  split at hf
  · exact absurd hf (by simp)
  simp only [] at hf
  split at hf
  · exact Or.inl hf
  split at hf
  · exact Or.inr hf
  · exact absurd hf (by simp)

theorem parse_buy_inv {slot : Int} {bt : Option Int} {tx : TransactionRef}
    {ix : InstructionRef} {t : BondingCurveTrade}
    (h : parse_buy slot bt tx ix = some t) :
    ∃ tok sol,
      read_u64_le (ix.data.drop 8) = some tok ∧
      read_u64_le (ix.data.drop 16) = some sol ∧
      t.side = "buy" ∧ t.token_amount = i64OfU64 tok ∧ t.sol_amount = i64OfU64 sol ∧
      t.price_nanos_per_token = i64OfU64 (if tok = 0 then 0 else sol / tok) := by
  unfold parse_buy at h
  split at h
  · exact absurd h (by simp)
  next mu hmu =>
    split at h
    · exact absurd h (by simp)
    next tok htok =>
      split at h
      · exact absurd h (by simp)
      next sol hsol =>
        rcases Option.some.inj h with rfl
        exact ⟨tok, sol, htok, hsol, rfl, rfl, rfl, rfl⟩

theorem parse_sell_inv {slot : Int} {bt : Option Int} {tx : TransactionRef}
    {ix : InstructionRef} {t : BondingCurveTrade}
    (h : parse_sell slot bt tx ix = some t) :
    ∃ tok sol,
      read_u64_le (ix.data.drop 8) = some tok ∧
      read_u64_le (ix.data.drop 16) = some sol ∧
      t.side = "sell" ∧ t.token_amount = i64OfU64 tok ∧ t.sol_amount = i64OfU64 sol ∧
      t.price_nanos_per_token = i64OfU64 (if tok = 0 then 0 else sol / tok) := by
  unfold parse_sell at h
  split at h
  · exact absurd h (by simp)
  next mu hmu =>
    split at h
    · exact absurd h (by simp)
    next tok htok =>
      split at h
      · exact absurd h (by simp)
      next sol hsol =>
        rcases Option.some.inj h with rfl
        exact ⟨tok, sol, htok, hsol, rfl, rfl, rfl, rfl⟩

theorem parse_raydium_swap_inv {slot : Int} {bt : Option Int} {tx : TransactionRef}
    {ix : InstructionRef} {t : BondingCurveTrade}
    (h : parse_raydium_swap slot bt tx ix = some t) :
    17 ≤ ix.data.length ∧ 3 ≤ ix.accounts.length ∧
    ∃ ain aout i0 trader,
      read_u64_le (ix.data.drop 1) = some ain ∧
      read_u64_le (ix.data.drop 9) = some aout ∧
      ix.accounts.get? 0 = some i0 ∧
      tx.message.account_keys.get? i0 = some trader ∧
      t = { signature := tx.signature
            slot := slot
            block_time := bt
            mint_pubkey := "raydium_pool_" ++ trader.take (min trader.length 8)
            trader := trader
            side := infer_swap_direction_raydium ain aout
            token_amount := i64OfU64 aout
            sol_amount := i64OfU64 ain
            price_nanos_per_token := i64OfU64 (if aout = 0 then 0 else ain / aout)
            tx_index := tx.index
            ix_index := ix.index } := by
  unfold parse_raydium_swap at h
  split at h
  · exact absurd h (by simp)
  next hdata =>
    push_neg at hdata
    split at h
    · exact absurd h (by simp)
    next ain hain =>
      split at h
      · exact absurd h (by simp)
      next aout haout =>
        split at h
        · exact absurd h (by simp)
        next hacc =>
          push_neg at hacc
          split at h
          · exact absurd h (by simp)
          next i0 hi0 =>
            split at h
            · exact absurd h (by simp)
            next trader htrader =>
              rcases Option.some.inj h with rfl
              exact ⟨hdata, hacc, ain, aout, i0, trader, hain, haout, hi0, htrader, rfl⟩

theorem parse_meteora_swap_inv {slot : Int} {bt : Option Int} {tx : TransactionRef}
    {ix : InstructionRef} {t : BondingCurveTrade}
    (h : parse_meteora_swap slot bt tx ix = some t) :
    17 ≤ ix.data.length ∧
    ∃ ain aout i0 trader i1 pool,
      read_u64_le (ix.data.drop 1) = some ain ∧
      read_u64_le (ix.data.drop 9) = some aout ∧
      ix.accounts.get? 0 = some i0 ∧
      tx.message.account_keys.get? i0 = some trader ∧
      ix.accounts.get? 1 = some i1 ∧
      tx.message.account_keys.get? i1 = some pool ∧
      t = { signature := tx.signature
            slot := slot
            block_time := bt
            mint_pubkey := pool
            trader := trader
            side := infer_dlmm_direction ain aout
            token_amount := i64OfU64 aout
            sol_amount := i64OfU64 ain
            price_nanos_per_token := i64OfU64 (if aout = 0 then 0 else ain / aout)
            tx_index := tx.index
            ix_index := ix.index } := by
  unfold parse_meteora_swap at h
  split at h
  · exact absurd h (by simp)
  next hdata =>
    push_neg at hdata
    split at h
    · exact absurd h (by simp)
    next ain hain =>
      split at h
      · exact absurd h (by simp)
      next aout haout =>
        split at h
        · exact absurd h (by simp)
        next i0 hi0 =>
          split at h
          · exact absurd h (by simp)
          next trader htrader =>
            split at h
            · exact absurd h (by simp)
            next i1 hi1 =>
              split at h
              · exact absurd h (by simp)
              next pool hpool =>
                rcases Option.some.inj h with rfl
                exact ⟨hdata, ain, aout, i0, trader, i1, pool, hain, haout,
                  hi0, htrader, hi1, hpool, rfl⟩

theorem exceptBind_ok {ε α β : Type} (a : α) (f : α → Except ε β) :
    (Except.ok a >>= f) = f a := rfl

theorem exceptBind_error {ε α β : Type} (e : ε) (f : α → Except ε β) :
    ((Except.error e : Except ε α) >>= f) = Except.error e := rfl

theorem foldl_cursor {α : Type} (f : Db → α → Db) (hf : ∀ d a, (f d a).cursor = d.cursor) :
    ∀ (l : List α) (db : Db), (l.foldl f db).cursor = db.cursor := by
  intro l
  induction l with
  | nil => intro db; rfl
  | cons a as ih =>
    intro db
    rw [List.foldl_cons, ih, hf]

theorem candleStep_cursor (ok : DbStep → Bool) (d : Db) (kt : Nat × BondingCurveTrade) :
    (candleStep ok d kt).cursor = d.cursor := by
  unfold candleStep
  split
  · rfl
  split <;> rfl

theorem candleLoop_cursor (ok : DbStep → Bool) (db : Db) (ts : List BondingCurveTrade) :
    (candleLoop ok db ts).cursor = db.cursor := by
  unfold candleLoop
  exact foldl_cursor _ (candleStep_cursor ok) _ db

theorem sectTransfers_error {ok : DbStep → Bool} {db : Db} {ts : List TokenTransfer} {d : Db}
    (h : sectTransfers ok db ts = Except.error d) :
    d.cursor = db.cursor ∧ ts.isEmpty = false ∧
      (ok DbStep.insertTransfers = false ∨ ok DbStep.updateBalances = false) := by
  unfold sectTransfers at h
  split at h
  · exact absurd h (by simp)
  next hne =>
    simp only [Bool.not_eq_true] at hne
    split at h
    next hins =>
      simp only [Bool.not_eq_true] at hins
      rcases Except.error.inj h with rfl
      exact ⟨rfl, hne, Or.inl hins⟩
    next hins =>
      split at h
      next hupd =>
        simp only [Bool.not_eq_true] at hupd
        rcases Except.error.inj h with rfl
        exact ⟨rfl, hne, Or.inr hupd⟩
      · exact absurd h (by simp)

theorem sectTransfers_ok {ok : DbStep → Bool} {db : Db} {ts : List TokenTransfer} {d : Db}
    (h : sectTransfers ok db ts = Except.ok d) :
    d.cursor = db.cursor ∧
      (ts.isEmpty = true ∨ (ok DbStep.insertTransfers = true ∧ ok DbStep.updateBalances = true)) := by
  unfold sectTransfers at h
  split at h
  next hemp =>
    rcases Except.ok.inj h with rfl
    exact ⟨rfl, Or.inl hemp⟩
  next hne =>
    split at h
    · exact absurd h (by simp)
    next hins =>
      split at h
      · exact absurd h (by simp)
      next hupd =>
        rcases Except.ok.inj h with rfl
        refine ⟨?_, Or.inr ⟨by revert hins; cases ok DbStep.insertTransfers <;> simp,
          by revert hupd; cases ok DbStep.updateBalances <;> simp⟩⟩
        rw [foldl_cursor (fun d (t : TokenTransfer) =>
          db_insert_event d "transfers" (some t.mint_pubkey)) (fun d t => rfl)]
        rfl

theorem sectVenue_error {ok : DbStep → Bool} {step : DbStep} {db : Db}
    {ts : List BondingCurveTrade} {d : Db}
    (h : sectVenue ok step db ts = Except.error d) :
    d.cursor = db.cursor ∧ ts.isEmpty = false ∧ ok step = false := by
  unfold sectVenue at h
  split at h
  · exact absurd h (by simp)
  next hne =>
    simp only [Bool.not_eq_true] at hne
    split at h
    next hins =>
      simp only [Bool.not_eq_true] at hins
      rcases Except.error.inj h with rfl
      exact ⟨rfl, hne, hins⟩
    · exact absurd h (by simp)

theorem sectVenue_ok {ok : DbStep → Bool} {step : DbStep} {db : Db}
    {ts : List BondingCurveTrade} {d : Db}
    (h : sectVenue ok step db ts = Except.ok d) :
    d.cursor = db.cursor ∧ (ts.isEmpty = true ∨ ok step = true) := by
  unfold sectVenue at h
  split at h
  next hemp =>
    rcases Except.ok.inj h with rfl
    exact ⟨rfl, Or.inl hemp⟩
  next hne =>
    split at h
    · exact absurd h (by simp)
    next hins =>
      rcases Except.ok.inj h with rfl
      refine ⟨?_, Or.inr (by revert hins; cases ok step <;> simp)⟩
      rw [foldl_cursor (fun d (t : BondingCurveTrade) =>
        db_insert_event d "bonding" (some t.mint_pubkey)) (fun d t => rfl)]
      rfl

theorem writerPhase1_error {ok : DbStep → Bool} {db : Db} {transfers : List TokenTransfer}
    {pump ray met : List BondingCurveTrade} {d : Db}
    (h : writerPhase1 ok db transfers pump ray met = Except.error d) :
    d.cursor = db.cursor ∧ writerAbortsOn ok transfers pump ray met = true := by
  unfold writerPhase1 at h
  cases h1 : sectTransfers ok db transfers with
  | error e =>
    rw [h1, exceptBind_error] at h
    rcases Except.error.inj h with rfl
    obtain ⟨hc, hne, hfail⟩ := sectTransfers_error h1
    refine ⟨hc, ?_⟩
    simp only [writerAbortsOn, Bool.decide_eq_true, decide_eq_true_eq]
    exact Or.inl ⟨by simp [hne], by rcases hfail with hf | hf <;> simp [hf]⟩
  | ok db1 =>
    rw [h1, exceptBind_ok] at h
    obtain ⟨hc1, hcond1⟩ := sectTransfers_ok h1
    cases h2 : sectVenue ok DbStep.insertPump db1 pump with
    | error e =>
      rw [h2, exceptBind_error] at h
      rcases Except.error.inj h with rfl
      obtain ⟨hc, hne, hfail⟩ := sectVenue_error h2
      refine ⟨hc.trans hc1, ?_⟩
      simp only [writerAbortsOn, Bool.decide_eq_true, decide_eq_true_eq]
      exact Or.inr (Or.inl ⟨by simp [hne], by simp [hfail]⟩)
    | ok db2 =>
      rw [h2, exceptBind_ok] at h
      obtain ⟨hc2, hcond2⟩ := sectVenue_ok h2
      cases h3 : sectVenue ok DbStep.insertRaydium db2 ray with
      | error e =>
        rw [h3, exceptBind_error] at h
        rcases Except.error.inj h with rfl
        obtain ⟨hc, hne, hfail⟩ := sectVenue_error h3
        refine ⟨(hc.trans hc2).trans hc1, ?_⟩
        simp only [writerAbortsOn, Bool.decide_eq_true, decide_eq_true_eq]
        exact Or.inr (Or.inr (Or.inl ⟨by simp [hne], by simp [hfail]⟩))
      | ok db3 =>
        rw [h3, exceptBind_ok] at h
        obtain ⟨hc3, hcond3⟩ := sectVenue_ok h3
        obtain ⟨hc, hne, hfail⟩ := sectVenue_error h
        refine ⟨((hc.trans hc3).trans hc2).trans hc1, ?_⟩
        simp only [writerAbortsOn, Bool.decide_eq_true, decide_eq_true_eq]
        exact Or.inr (Or.inr (Or.inr ⟨by simp [hne], by simp [hfail]⟩))

theorem writerPhase1_ok {ok : DbStep → Bool} {db : Db} {transfers : List TokenTransfer}
    {pump ray met : List BondingCurveTrade} {d : Db}
    (h : writerPhase1 ok db transfers pump ray met = Except.ok d) :
    d.cursor = db.cursor ∧ writerAbortsOn ok transfers pump ray met = false := by
  unfold writerPhase1 at h
  cases h1 : sectTransfers ok db transfers with
  | error e =>
    rw [h1, exceptBind_error] at h
    exact absurd h (by simp)
  | ok db1 =>
    rw [h1, exceptBind_ok] at h
    obtain ⟨hc1, hcond1⟩ := sectTransfers_ok h1
    cases h2 : sectVenue ok DbStep.insertPump db1 pump with
    | error e =>
      rw [h2, exceptBind_error] at h
      exact absurd h (by simp)
    | ok db2 =>
      rw [h2, exceptBind_ok] at h
      obtain ⟨hc2, hcond2⟩ := sectVenue_ok h2
      cases h3 : sectVenue ok DbStep.insertRaydium db2 ray with
      | error e =>
        rw [h3, exceptBind_error] at h
        exact absurd h (by simp)
      | ok db3 =>
        rw [h3, exceptBind_ok] at h
        obtain ⟨hc3, hcond3⟩ := sectVenue_ok h3
        obtain ⟨hc4, hcond4⟩ := sectVenue_ok h
        refine ⟨((hc4.trans hc3).trans hc2).trans hc1, ?_⟩
        simp only [writerAbortsOn, decide_eq_false_iff_not]
        push_neg
        refine ⟨?_, ?_, ?_, ?_⟩ <;> tauto

/-- C1 (amended): the cursor after one writer-loop iteration is fully
characterized: when a reached batch persistence step (inserting transfers,
applying balance deltas, or inserting a venue's trades) fails, the rest of
the block is skipped and the cursor keeps its prior value; otherwise the
cursor is advanced to the block's slot whenever the cursor write succeeds.
In particular a failed candle upsert does not stop the block and does not
prevent the cursor from advancing. -/
theorem c1_writer_skip_on_failure (ok : DbStep → Bool) (wl : List String) (db : Db)
    (block : BlockRef) :
    (processBlock ok wl db block).cursor =
      if writerAborts ok wl block = true then db.cursor
      else if ok DbStep.setCursor = true then some block.slot else db.cursor := by
  unfold processBlock writerAborts
  cases hp : writerPhase1 ok db (extract_transfers_from_block block wl)
      (extract_pump_trades_from_block block) (extract_raydium_trades_from_block block)
      (extract_meteora_trades_from_block block) with
  | error d =>
    obtain ⟨hc, habort⟩ := writerPhase1_error hp
    rw [habort]
    simpa using hc
  | ok d =>
    obtain ⟨hc, habort⟩ := writerPhase1_ok hp
    rw [habort]
    simp only [Bool.false_eq_true, if_false]
    split
    · rfl
    · rw [candleLoop_cursor, hc]

theorem parse_transfer_some {block : BlockRef} {tx : TransactionRef} {ix : InstructionRef}
    {i0 i2 : Nat} {k0 k2 : String}
    (hdlen : 9 ≤ ix.data.length) (halen : 3 ≤ ix.accounts.length)
    (h0 : ix.accounts.get? 0 = some i0) (h2 : ix.accounts.get? 2 = some i2)
    (hk0 : tx.message.account_keys.get? i0 = some k0)
    (hk2 : tx.message.account_keys.get? i2 = some k2) :
    parse_transfer block tx ix [] =
      some { signature := tx.signature
             slot := block.slot
             block_time := block.blockTime
             mint_pubkey := "unknown_mint"
             source_owner := k0
             dest_owner := k2
             source_ata := k0
             dest_ata := k2
             amount := i64OfU64 (leValue ((ix.data.drop 1).take 8))
             tx_index := tx.index
             ix_index := ix.index } := by
  have hread : read_u64_le (ix.data.drop 1) = some (leValue ((ix.data.drop 1).take 8)) := by
    unfold read_u64_le
    rw [if_neg]
    simp only [List.length_drop]
    omega
  unfold parse_transfer
  rw [if_neg (by omega), h0, h2]
  simp only [hk0, hk2, hread]
  simp

theorem parse_spl_amount {block : BlockRef} {tx : TransactionRef} {ix : InstructionRef}
    {wl : List String} {t : TokenTransfer}
    (h : parse_spl_transfer block tx ix wl = some t) :
    ∃ a, read_u64_le (ix.data.drop 1) = some a ∧ t.amount = i64OfU64 a := by
  rcases parse_spl_transfer_inv h with ⟨d, hd, hbr⟩
  rcases hbr with ⟨_, hp⟩ | ⟨_, hp⟩ | ⟨_, hp⟩ | ⟨_, hp⟩ | ⟨_, hp⟩ | ⟨_, hp⟩
  · rcases parse_transfer_inv hp with ⟨_, _, i0, i2, k0, k2, a, _, _, _, _, ha, rfl⟩
    exact ⟨a, ha, rfl⟩
  · rcases parse_transfer_checked_inv hp with ⟨_, _, i0, i1, i2, k0, km, k2, a, _, _, _, _, _, _, _, ha, rfl⟩
    exact ⟨a, ha, rfl⟩
  · rcases parse_mint_to_inv hp with ⟨_, _, i0, i1, km, kd, a, _, _, _, _, _, ha, rfl⟩
    exact ⟨a, ha, rfl⟩
  · rcases parse_mint_to_checked_inv hp with ⟨_, _, i0, i1, km, kd, a, _, _, _, _, _, ha, rfl⟩
    exact ⟨a, ha, rfl⟩
  · rcases parse_burn_inv hp with ⟨_, _, i0, i1, ks, km, a, _, _, _, _, _, ha, rfl⟩
    exact ⟨a, ha, rfl⟩
  · rcases parse_burn_checked_inv hp with ⟨_, _, i0, i1, ks, km, a, _, _, _, _, _, ha, rfl⟩
    exact ⟨a, ha, rfl⟩

theorem idxInRange_true {keys : List String} {accounts : List Nat} {i a : Nat} {k : String}
    (hai : accounts.get? i = some a) (hk : keys.get? a = some k) :
    idxInRange keys accounts i = true := by
  unfold idxInRange
  rw [hai]
  simp only [decide_eq_true_eq]
  rcases List.get?_eq_some.mp hk with ⟨hlt, _⟩
  exact hlt

theorem data_len_of_read {ix : InstructionRef} {a : Nat}
    (h : read_u64_le (ix.data.drop 1) = some a) : 9 ≤ ix.data.length := by
  have := read_u64_le_some_length h
  simp only [List.length_drop] at this
  omega

/-- C9 (amended): an SPL instruction that is malformed — empty data or
unknown discriminator, too few data bytes or account indices for its
variant, or an account index that the variant dereferences out of range
of account_keys — produces no TokenTransfer.  (The embedding is total by
construction: every partial access in the decoder is an explicit
Option.) -/
theorem c9_malformed_skip :
    ∀ (block : BlockRef) (tx : TransactionRef) (ix : InstructionRef) (wl : List String),
      splMalformed tx ix = true → parse_spl_transfer block tx ix wl = none := by
  intro block tx ix wl hm
  cases hp : parse_spl_transfer block tx ix wl with
  | none => rfl
  | some t =>
    exfalso
    rcases parse_spl_transfer_inv hp with ⟨d, hd, hbr⟩
    unfold splMalformed at hm
    rw [hd] at hm
    rcases hbr with ⟨rfl, hv⟩ | ⟨rfl, hv⟩ | ⟨rfl, hv⟩ | ⟨rfl, hv⟩ | ⟨rfl, hv⟩ | ⟨rfl, hv⟩
    · rcases parse_transfer_inv hv with ⟨halen, -, i0, i2, k0, k2, a, h0, h2, hk0, hk2, ha, -⟩
      simp at hm
      rcases hm with ((h | h) | h) | h
      · omega
      · exact absurd (data_len_of_read ha) (by omega)
      · rw [idxInRange_true h0 hk0] at h
        exact Bool.noConfusion h
      · rw [idxInRange_true h2 hk2] at h
        exact Bool.noConfusion h
    · rcases parse_transfer_checked_inv hv with
        ⟨halen, hdlen, i0, i1, i2, k0, km, k2, a, h0, h1, h2, hk0, hkm, hk2, -, -, -⟩
      simp at hm
      rcases hm with (((h | h) | h) | h) | h
      · omega
      · omega
      · rw [idxInRange_true h0 hk0] at h
        exact Bool.noConfusion h
      · rw [idxInRange_true h1 hkm] at h
        exact Bool.noConfusion h
      · rw [idxInRange_true h2 hk2] at h
        exact Bool.noConfusion h
    · rcases parse_mint_to_inv hv with ⟨halen, hdlen, i0, i1, km, kd, a, h0, h1, hkm, hkd, -, -, -⟩
      simp at hm
      rcases hm with ((h | h) | h) | h
      · omega
      · omega
      · rw [idxInRange_true h0 hkm] at h
        exact Bool.noConfusion h
      · rw [idxInRange_true h1 hkd] at h
        exact Bool.noConfusion h
    · rcases parse_mint_to_checked_inv hv with
        ⟨halen, hdlen, i0, i1, km, kd, a, h0, h1, hkm, hkd, -, -, -⟩
      simp at hm
      rcases hm with ((h | h) | h) | h
      · omega
      · omega
      · rw [idxInRange_true h0 hkm] at h
        exact Bool.noConfusion h
      · rw [idxInRange_true h1 hkd] at h
        exact Bool.noConfusion h
    · rcases parse_burn_inv hv with ⟨halen, hdlen, i0, i1, ks, km, a, h0, h1, hks, hkm, -, -, -⟩
      simp at hm
      rcases hm with ((h | h) | h) | h
      · omega
      · omega
      · rw [idxInRange_true h0 hks] at h
        exact Bool.noConfusion h
      · rw [idxInRange_true h1 hkm] at h
        exact Bool.noConfusion h
    · rcases parse_burn_checked_inv hv with
        ⟨halen, hdlen, i0, i1, ks, km, a, h0, h1, hks, hkm, -, -, -⟩
      simp at hm
      rcases hm with ((h | h) | h) | h
      · omega
      · omega
      · rw [idxInRange_true h0 hks] at h
        exact Bool.noConfusion h
      · rw [idxInRange_true h1 hkm] at h
        exact Bool.noConfusion h

theorem streamSteps_spec :
    ∀ (n : Nat) (c : FirehoseClient) (cur : Int), 0 < n →
      (streamSteps c cur n).2.last_slot = some (cur + n - 1) ∧
      (streamSteps c cur n).1.getLast? = some (cur + n - 1) := by
  intro n
  induction n with
  | zero => intro c cur h; omega
  | succ m ih =>
    intro c cur _
    cases m with
    | zero =>
      simp [streamSteps]
    | succ k =>
      have hk : 0 < k + 1 := Nat.succ_pos k
      obtain ⟨hlast, hgl⟩ := ih { c with last_slot := some cur } (cur + 1) hk
      constructor
      · show (streamSteps { c with last_slot := some cur } (cur + 1) (k + 1)).2.last_slot = _
        rw [hlast]
        congr 1
        push_cast
        ring
      · show (cur :: (streamSteps { c with last_slot := some cur } (cur + 1) (k + 1)).1).getLast? = _
        cases hl : (streamSteps { c with last_slot := some cur } (cur + 1) (k + 1)).1 with
        | nil =>
          rw [hl] at hgl
          exact absurd hgl (by simp)
        | cons b bs =>
          rw [hl] at hgl
          rw [List.getLast?_cons_cons]
          rw [hgl]
          congr 1
          push_cast
          ring

/-- C1 counterexample: with only the first candle upsert failing, the
block's second trade is still turned into a candle and the cursor is
advanced to the block's slot, contradicting the claim that a failing
candle upsert skips the remainder of the block and leaves the cursor
unchanged. -/
theorem c1_writer_skip_on_failure_cex :
    c1Oracle (DbStep.upsertCandle 0) = false ∧
    (extract_raydium_trades_from_block c1Block).length = 2 ∧
    emptyDb.cursor = none ∧
    (processBlock c1Oracle [] emptyDb c1Block).cursor = some 500 ∧
    (processBlock c1Oracle [] emptyDb c1Block).candles ≠ [] := by
  decide

/-- C2: a candle upsert that hits an existing (mint, timeframe,
bucket_start) row takes the maximum high, the minimum low, the incoming
close, the sums of the volumes and of the trade counts, and keeps the
existing open; the S5 scenario (prices 100 then 120 with token amounts 1
then 2 in one 60-second bucket) ends in the candle open 100, high 120,
low 100, close 120, volume_token 3, trades_count 2. -/
theorem c2_candle_merge :
    (∀ old c : Candle, mergeCandle old c =
      { mint_pubkey := old.mint_pubkey
        timeframe_secs := old.timeframe_secs
        bucket_start := old.bucket_start
        open_ := old.open_
        high := max old.high c.high
        low := min old.low c.low
        close := c.close
        volume_token := old.volume_token + c.volume_token
        volume_sol := old.volume_sol + c.volume_sol
        trades_count := old.trades_count + c.trades_count }) ∧
    (∀ (rows : List Candle) (c : Candle), rows.any (fun r => sameCandleKey r c) = true →
      upsert_candle_rows rows c =
        rows.map (fun r => if sameCandleKey r c then mergeCandle r c else r)) ∧
    (candleLoop (fun _ => true) emptyDb [c2Trade1, c2Trade2]).candles =
      [{ mint_pubkey := "mint_x"
         timeframe_secs := 60
         bucket_start := 60
         open_ := 100
         high := 120
         low := 100
         close := 120
         volume_token := 3
         volume_sol := 30
         trades_count := 2 }] := by
  refine ⟨fun old c => rfl, fun rows c h => ?_, by decide⟩
  unfold upsert_candle_rows
  rw [if_pos h]

/-- Witness for C2: the merge branch of the upsert applied at a concrete
row hit. -/
theorem c2_candle_merge_witness :
    upsert_candle_rows [candleOf c2Trade1 90] (candleOf c2Trade2 90) =
      [candleOf c2Trade1 90].map (fun r =>
        if sameCandleKey r (candleOf c2Trade2 90)
        then mergeCandle r (candleOf c2Trade2 90) else r) :=
  c2_candle_merge.2.1 [candleOf c2Trade1 90] (candleOf c2Trade2 90) (by decide)

/-- C3: every trade emitted by any of the three DEX decoders stores
price_nanos_per_token equal to the integer quotient of the decoded u64
sol amount by the decoded u64 token amount, and 0 when the token amount
is 0 (each of the three fields is the u64 value reinterpreted as i64). -/
theorem c3_price_rule :
    ∀ (block : BlockRef) (t : BondingCurveTrade),
      (t ∈ extract_pump_trades_from_block block ∨
       t ∈ extract_raydium_trades_from_block block ∨
       t ∈ extract_meteora_trades_from_block block) →
      ∃ sol tok : Nat,
        t.sol_amount = i64OfU64 sol ∧ t.token_amount = i64OfU64 tok ∧
        t.price_nanos_per_token = i64OfU64 (if tok = 0 then 0 else sol / tok) := by
  intro block t h
  rcases h with h | h | h
  · rcases mem_extract_pump h with ⟨tx, ix, -, -, hp | hp⟩
    · rcases parse_buy_inv hp with ⟨tok, sol, -, -, -, htok, hsol, hprice⟩
      exact ⟨sol, tok, hsol, htok, hprice⟩
    · rcases parse_sell_inv hp with ⟨tok, sol, -, -, -, htok, hsol, hprice⟩
      exact ⟨sol, tok, hsol, htok, hprice⟩
  · rcases mem_extract_raydium h with ⟨tx, ix, -, -, -, hp⟩
    rcases parse_raydium_swap_inv hp with ⟨-, -, ain, aout, i0, trader, -, -, -, -, rfl⟩
    exact ⟨ain, aout, rfl, rfl, rfl⟩
  · rcases mem_extract_meteora h with ⟨tx, ix, -, -, -, hp⟩
    rcases parse_meteora_swap_inv hp with ⟨-, ain, aout, i0, trader, i1, pool, -, -, -, -, -, -, rfl⟩
    exact ⟨ain, aout, rfl, rfl, rfl⟩

/-- Witness for C3 at a concrete Raydium swap. -/
theorem c3_price_rule_witness :
    ∃ sol tok : Nat,
      (⟨"c3sig", 41, some 120, "raydium_pool_c3_trade", "c3_trader", "buy",
        1000, 100, 0, 0, 0⟩ : BondingCurveTrade).sol_amount = i64OfU64 sol ∧
      (⟨"c3sig", 41, some 120, "raydium_pool_c3_trade", "c3_trader", "buy",
        1000, 100, 0, 0, 0⟩ : BondingCurveTrade).token_amount = i64OfU64 tok ∧
      (⟨"c3sig", 41, some 120, "raydium_pool_c3_trade", "c3_trader", "buy",
        1000, 100, 0, 0, 0⟩ : BondingCurveTrade).price_nanos_per_token =
        i64OfU64 (if tok = 0 then 0 else sol / tok) :=
  c3_price_rule c3Block _ (Or.inr (Or.inl (by decide)))

theorem parse_transfer_none_of_wl {block : BlockRef} {tx : TransactionRef}
    {ix : InstructionRef} {wl : List String} (hwl : wl ≠ []) :
    parse_transfer block tx ix wl = none := by
  cases hpt : parse_transfer block tx ix wl with
  | none => rfl
  | some t =>
    rcases parse_transfer_inv hpt with ⟨-, rfl, -⟩
    exact absurd rfl hwl

/-- C4: with a non-empty whitelist, an unchecked Transfer (discriminator
3) yields no TokenTransfer and a mint-carrying variant (12, 13, 8, 14, 7)
yields one only if its mint account key is in the whitelist; with an
empty whitelist, a well-formed unchecked Transfer is emitted. -/
theorem c4_whitelist_policy :
    (∀ (block : BlockRef) (tx : TransactionRef) (ix : InstructionRef) (wl : List String),
      wl ≠ [] → ix.data.get? 0 = some 3 → parse_spl_transfer block tx ix wl = none) ∧
    (∀ (block : BlockRef) (tx : TransactionRef) (ix : InstructionRef) (wl : List String)
        (t : TokenTransfer) (d : Nat),
      wl ≠ [] → ix.data.get? 0 = some d → (d = 12 ∨ d = 13 ∨ d = 8 ∨ d = 14 ∨ d = 7) →
      parse_spl_transfer block tx ix wl = some t → t.mint_pubkey ∈ wl) ∧
    (∀ (block : BlockRef) (tx : TransactionRef) (ix : InstructionRef) (i0 i2 : Nat)
        (k0 k2 : String),
      ix.data.get? 0 = some 3 → 9 ≤ ix.data.length → 3 ≤ ix.accounts.length →
      ix.accounts.get? 0 = some i0 → ix.accounts.get? 2 = some i2 →
      tx.message.account_keys.get? i0 = some k0 →
      tx.message.account_keys.get? i2 = some k2 →
      ∃ t, parse_spl_transfer block tx ix [] = some t) := by
  refine ⟨?_, ?_, ?_⟩
  · intro block tx ix wl hwl hd
    unfold parse_spl_transfer
    simp only [hd, reduceIte]
    exact parse_transfer_none_of_wl hwl
  · intro block tx ix wl t d hwl hd hdset hp
    rcases parse_spl_transfer_inv hp with ⟨d2, hd2, hbr⟩
    rw [hd] at hd2
    rcases Option.some.inj hd2 with rfl
    rcases hbr with ⟨rfl, hv⟩ | ⟨rfl, hv⟩ | ⟨rfl, hv⟩ | ⟨rfl, hv⟩ | ⟨rfl, hv⟩ | ⟨rfl, hv⟩
    · rcases hdset with h | h | h | h | h <;> exact absurd h (by decide)
    · rcases parse_transfer_checked_inv hv with
        ⟨-, -, i0, i1, i2, k0, km, k2, a, -, -, -, -, -, -, hmem, -, rfl⟩
      exact hmem hwl
    · rcases parse_mint_to_inv hv with ⟨-, -, i0, i1, km, kd, a, -, -, -, -, hmem, -, rfl⟩
      exact hmem hwl
    · rcases parse_mint_to_checked_inv hv with ⟨-, -, i0, i1, km, kd, a, -, -, -, -, hmem, -, rfl⟩
      exact hmem hwl
    · rcases parse_burn_inv hv with ⟨-, -, i0, i1, ks, km, a, -, -, -, -, hmem, -, rfl⟩
      exact hmem hwl
    · rcases parse_burn_checked_inv hv with ⟨-, -, i0, i1, ks, km, a, -, -, -, -, hmem, -, rfl⟩
      exact hmem hwl
  · intro block tx ix i0 i2 k0 k2 hd hdlen halen h0 h2 hk0 hk2
    have hps := @parse_transfer_some block tx ix i0 i2 k0 k2 hdlen halen h0 h2 hk0 hk2
    exact ⟨_, by unfold parse_spl_transfer; simp only [hd, reduceIte]; exact hps⟩

/-- Witness for C4: the three parts instantiated at concrete
instructions. -/
theorem c4_whitelist_policy_witness :
    (parse_spl_transfer c4Block c4Tx c4IxPlain ["mint_X"] = none) ∧
    ((⟨"c4sig", 100, some 1000, "mint_X", "src_ata", "dst_ata", "src_ata", "dst_ata",
        1000000, 0, 0⟩ : TokenTransfer).mint_pubkey ∈ (["mint_X"] : List String)) ∧
    (∃ t, parse_spl_transfer c4Block c4Tx c4IxPlain [] = some t) :=
  ⟨c4_whitelist_policy.1 c4Block c4Tx c4IxPlain ["mint_X"] (by decide) (by decide),
   c4_whitelist_policy.2.1 c4Block c4Tx c4IxChecked ["mint_X"] _ 12 (by decide) (by decide)
     (Or.inl rfl) (by decide),
   c4_whitelist_policy.2.2 c4Block c4Tx c4IxPlain 0 2 "src_ata" "dst_ata" (by decide) (by decide)
     (by decide) (by decide) (by decide) (by decide) (by decide)⟩

/-- C5 (amended): after a connection that pushed at least one block onto
the queue fails, the next connection starts exactly at the highest slot
already pushed (`last_pushed`), not at `last_pushed + 1`. -/
theorem c5_resume_slot :
    ∀ (c : FirehoseClient) (n : Nat), 0 < n →
      (connectAndStreamN c n).1.getLast? =
        some (connectStartSlot (connectAndStreamN c n).2) := by
  intro c n hn
  obtain ⟨hlast, hgl⟩ := streamSteps_spec n c (connectStartSlot c) hn
  unfold connectAndStreamN
  rw [hgl]
  congr 1
  have hs : connectStartSlot (streamSteps c (connectStartSlot c) n).2 =
      ((streamSteps c (connectStartSlot c) n).2.last_slot).getD
        ((streamSteps c (connectStartSlot c) n).2.from_slot.getD 0) := rfl
  rw [hs, hlast, Option.getD_some]

/-- C5 counterexample: a client configured from slot 100 pushes slots
100 and 101 before the stream fails, and the reconnect start slot is 101,
not 102 as the claim states. -/
theorem c5_resume_slot_cex :
    (connectAndStreamN (FirehoseClient.new c5Config) 2).1 = [100, 101] ∧
    connectStartSlot (connectAndStreamN (FirehoseClient.new c5Config) 2).2 = 101 ∧
    (101 : Int) ≠ 101 + 1 := by
  decide

/-- Witness for C5 on a concrete two-block stream run. -/
theorem c5_resume_slot_witness :
    0 < 2 ∧
    (connectAndStreamN (FirehoseClient.new c5Config) 2).1.getLast? =
      some (connectStartSlot (connectAndStreamN (FirehoseClient.new c5Config) 2).2) :=
  ⟨by decide, c5_resume_slot (FirehoseClient.new c5Config) 2 (by decide)⟩

/-- C6: for the AMM and DLMM decoders the side is "buy" whenever either
amount is zero, else "sell" exactly when the f64 ratio
amount_out / amount_in is below the f64 literal 0.1 and "buy" otherwise;
token_amount is the decoded amount_out and sol_amount the decoded
amount_in; and for amount_in 10_000_000_000, amount_out 50_000_000 the
side is "sell". -/
theorem c6_direction_rule :
    (∀ ain aout : Nat, ain = 0 ∨ aout = 0 →
      infer_swap_direction_raydium ain aout = "buy" ∧
      infer_dlmm_direction ain aout = "buy") ∧
    (∀ ain aout : Nat, ain ≠ 0 → aout ≠ 0 →
      infer_swap_direction_raydium ain aout =
        (if dyLt (f64Div (f64OfU64 aout) (f64OfU64 ain)) f64Tenth then "sell" else "buy") ∧
      infer_dlmm_direction ain aout = infer_swap_direction_raydium ain aout) ∧
    (∀ (slot : Int) (bt : Option Int) (tx : TransactionRef) (ix : InstructionRef)
        (t : BondingCurveTrade), parse_raydium_swap slot bt tx ix = some t →
      ∃ ain aout, read_u64_le (ix.data.drop 1) = some ain ∧
        read_u64_le (ix.data.drop 9) = some aout ∧
        t.side = infer_swap_direction_raydium ain aout ∧
        t.token_amount = i64OfU64 aout ∧ t.sol_amount = i64OfU64 ain) ∧
    (∀ (slot : Int) (bt : Option Int) (tx : TransactionRef) (ix : InstructionRef)
        (t : BondingCurveTrade), parse_meteora_swap slot bt tx ix = some t →
      ∃ ain aout, read_u64_le (ix.data.drop 1) = some ain ∧
        read_u64_le (ix.data.drop 9) = some aout ∧
        t.side = infer_dlmm_direction ain aout ∧
        t.token_amount = i64OfU64 aout ∧ t.sol_amount = i64OfU64 ain) ∧
    infer_swap_direction_raydium 10000000000 50000000 = "sell" ∧
    infer_dlmm_direction 10000000000 50000000 = "sell" := by
  refine ⟨?_, ?_, ?_, ?_, by decide, by decide⟩
  · intro ain aout h
    constructor
    · unfold infer_swap_direction_raydium
      rw [if_pos h]
    · unfold infer_dlmm_direction
      rw [if_pos h]
  · intro ain aout ha hb
    constructor
    · unfold infer_swap_direction_raydium
      rw [if_neg (by tauto)]
    · rfl
  · intro slot bt tx ix t hp
    rcases parse_raydium_swap_inv hp with ⟨-, -, ain, aout, i0, trader, hain, haout, -, -, rfl⟩
    exact ⟨ain, aout, hain, haout, rfl, rfl, rfl⟩
  · intro slot bt tx ix t hp
    rcases parse_meteora_swap_inv hp with
      ⟨-, ain, aout, i0, trader, i1, pool, hain, haout, -, -, -, -, rfl⟩
    exact ⟨ain, aout, hain, haout, rfl, rfl, rfl⟩

/-- Witness for C6: the four quantified parts instantiated at concrete
amounts and instructions. -/
theorem c6_direction_rule_witness :
    (infer_swap_direction_raydium 0 5 = "buy" ∧ infer_dlmm_direction 0 5 = "buy") ∧
    (infer_swap_direction_raydium 10 1 =
      (if dyLt (f64Div (f64OfU64 1) (f64OfU64 10)) f64Tenth then "sell" else "buy") ∧
      infer_dlmm_direction 10 1 = infer_swap_direction_raydium 10 1) ∧
    (∃ ain aout, read_u64_le (c6IxS4.data.drop 1) = some ain ∧
      read_u64_le (c6IxS4.data.drop 9) = some aout ∧
      (⟨"c6sig", 55, some 30, "raydium_pool_c6trader", "c6trader", "sell",
        50000000, 10000000000, 200, 0, 0⟩ : BondingCurveTrade).side =
        infer_swap_direction_raydium ain aout ∧
      (⟨"c6sig", 55, some 30, "raydium_pool_c6trader", "c6trader", "sell",
        50000000, 10000000000, 200, 0, 0⟩ : BondingCurveTrade).token_amount = i64OfU64 aout ∧
      (⟨"c6sig", 55, some 30, "raydium_pool_c6trader", "c6trader", "sell",
        50000000, 10000000000, 200, 0, 0⟩ : BondingCurveTrade).sol_amount = i64OfU64 ain) ∧
    (∃ ain aout, read_u64_le (c6MetIx.data.drop 1) = some ain ∧
      read_u64_le (c6MetIx.data.drop 9) = some aout ∧
      (⟨"c6msig", 56, some 31, "mpool", "mtrader", "buy",
        1000, 100, 0, 1, 0⟩ : BondingCurveTrade).side = infer_dlmm_direction ain aout ∧
      (⟨"c6msig", 56, some 31, "mpool", "mtrader", "buy",
        1000, 100, 0, 1, 0⟩ : BondingCurveTrade).token_amount = i64OfU64 aout ∧
      (⟨"c6msig", 56, some 31, "mpool", "mtrader", "buy",
        1000, 100, 0, 1, 0⟩ : BondingCurveTrade).sol_amount = i64OfU64 ain) :=
  ⟨c6_direction_rule.1 0 5 (Or.inl rfl),
   c6_direction_rule.2.1 10 1 (by decide) (by decide),
   c6_direction_rule.2.2.1 55 (some 30) c6Tx c6IxS4 _ (by decide),
   c6_direction_rule.2.2.2.1 56 (some 31) c6MetTx c6MetIx _ (by decide)⟩

/-- C7 (amended): every trade emitted by the AMM decoder records the
mint field "raydium_pool_" — not "amm_pool_" — concatenated with the
first at most 8 characters of the trader's key. -/
theorem c7_amm_mint_placeholder :
    ∀ (slot : Int) (bt : Option Int) (tx : TransactionRef) (ix : InstructionRef)
      (t : BondingCurveTrade), parse_raydium_swap slot bt tx ix = some t →
      t.mint_pubkey = "raydium_pool_" ++ t.trader.take (min t.trader.length 8) := by
  intro slot bt tx ix t hp
  rcases parse_raydium_swap_inv hp with ⟨-, -, ain, aout, i0, trader, -, -, -, -, rfl⟩
  rfl

/-- C7 counterexample: a concrete AMM swap by "trader_wallet" is
recorded with mint "raydium_pool_trader_w", which is not "amm_pool_"
followed by any prefix of the trader's key. -/
theorem c7_amm_mint_placeholder_cex :
    (extract_raydium_trades_from_block c7Block).map (fun t => t.mint_pubkey) =
      ["raydium_pool_trader_w"] ∧
    (∀ n : Nat, n ≤ 13 →
      "raydium_pool_trader_w" ≠ "amm_pool_" ++ String.mk (("trader_wallet").data.take n)) := by
  constructor
  · decide
  · decide

/-- Witness for C7 at a concrete AMM swap. -/
theorem c7_amm_mint_placeholder_witness :
    (⟨"sig7", 11, some 60, "raydium_pool_trader_w", "trader_wallet", "buy",
      1000, 100, 0, 0, 0⟩ : BondingCurveTrade).mint_pubkey =
      "raydium_pool_" ++
        (⟨"sig7", 11, some 60, "raydium_pool_trader_w", "trader_wallet", "buy",
          1000, 100, 0, 0, 0⟩ : BondingCurveTrade).trader.take
          (min (⟨"sig7", 11, some 60, "raydium_pool_trader_w", "trader_wallet", "buy",
            1000, 100, 0, 0, 0⟩ : BondingCurveTrade).trader.length 8) :=
  c7_amm_mint_placeholder 11 (some 60) c7Tx c7Ix _ (by decide)

/-- C8 (amended): on byte-valued blocks, every transfer amount emitted
by the SPL decoder is the two's-complement i64 reinterpretation of the
decoded u64 amount: it lies in [-2^63, 2^63) and is nonnegative exactly
when the encoded u64 amount is below 2^63. -/
theorem c8_amount_range :
    ∀ (block : BlockRef) (wl : List String) (t : TokenTransfer),
      BlockWF block → t ∈ extract_transfers_from_block block wl →
      ∃ a : Nat, a < 2 ^ 64 ∧ t.amount = i64OfU64 a ∧
        (0 ≤ t.amount ↔ a < 2 ^ 63) ∧ -(2 ^ 63) ≤ t.amount ∧ t.amount < 2 ^ 63 := by
  intro block wl t hwf ht
  rcases mem_extract_transfers ht with ⟨tx, ix, htx, hix, -, hp⟩
  rcases parse_spl_amount hp with ⟨a, ha, hamt⟩
  have hbytes : ∀ b ∈ ix.data.drop 1, b < 256 :=
    fun b hb => hwf tx htx ix hix b (List.drop_subset 1 ix.data hb)
  have ha64 : a < 2 ^ 64 := read_u64_le_lt hbytes ha
  obtain ⟨hlo, hhi, hiff⟩ := i64OfU64_bounds ha64
  rw [hamt]
  exact ⟨a, ha64, rfl, hiff, hlo, hhi⟩

/-- C8 counterexample: a TransferChecked whose encoded u64 amount is
2^63 is emitted with the negative amount -2^63, contradicting
amount >= 0. -/
theorem c8_amount_range_cex :
    extract_transfers_from_block c8Block ["m"] =
      [⟨"sig8", 9, some 1000, "m", "s", "d", "s", "d", -9223372036854775808, 0, 0⟩] ∧
    (-9223372036854775808 : Int) < 0 := by
  constructor
  · decide
  · decide

/-- Witness for C8 on a concrete block with a small amount. -/
theorem c8_amount_range_witness :
    BlockWF c8SmallBlock ∧
    (∃ a : Nat, a < 2 ^ 64 ∧
      (⟨"sig8b", 10, some 1000, "m", "s", "d", "s", "d", 1000000, 0, 0⟩ :
        TokenTransfer).amount = i64OfU64 a ∧
      (0 ≤ (⟨"sig8b", 10, some 1000, "m", "s", "d", "s", "d", 1000000, 0, 0⟩ :
        TokenTransfer).amount ↔ a < 2 ^ 63) ∧
      -(2 ^ 63) ≤ (⟨"sig8b", 10, some 1000, "m", "s", "d", "s", "d", 1000000, 0, 0⟩ :
        TokenTransfer).amount ∧
      (⟨"sig8b", 10, some 1000, "m", "s", "d", "s", "d", 1000000, 0, 0⟩ :
        TokenTransfer).amount < 2 ^ 63) :=
  ⟨by unfold BlockWF; decide,
   c8_amount_range c8SmallBlock ["m"] _ (by unfold BlockWF; decide) (by decide)⟩

/-- C9 counterexample: an unchecked Transfer whose account-index list
contains the out-of-range index 7 in a position the decoder never reads
still produces a TokenTransfer, so an out-of-range account index alone
does not imply a silent skip as the claim states. -/
theorem c9_malformed_skip_cex :
    parse_spl_transfer c9Block c9OorTx c9OorIx [] =
      some ⟨"sig9", 3, none, "unknown_mint", "a", "b", "a", "b", 5, 0, 0⟩ ∧
    c9OorIx.accounts.get? 1 = some 7 ∧
    c9OorTx.message.account_keys.length = 2 ∧
    idxInRange c9OorTx.message.account_keys c9OorIx.accounts 1 = false ∧
    (extract_transfers_from_block c9Block []).length = 1 := by
  decide

/-- Witness for C9 at a concrete malformed (single-account)
TransferChecked. -/
theorem c9_malformed_skip_witness :
    splMalformed c9Tx c9ShortIx = true ∧
    parse_spl_transfer c9WitnessBlock c9Tx c9ShortIx ["m"] = none :=
  ⟨by decide, c9_malformed_skip c9WitnessBlock c9Tx c9ShortIx ["m"] (by decide)⟩

/-- C10: with an empty whitelist, every unchecked Transfer
(discriminator 3) that decodes successfully is emitted with mint_pubkey
"unknown_mint", source_owner equal to source_ata, and dest_owner equal
to dest_ata. -/
theorem c10_unchecked_transfer :
    ∀ (block : BlockRef) (tx : TransactionRef) (ix : InstructionRef) (t : TokenTransfer),
      ix.data.get? 0 = some 3 → parse_spl_transfer block tx ix [] = some t →
      t.mint_pubkey = "unknown_mint" ∧ t.source_owner = t.source_ata ∧
        t.dest_owner = t.dest_ata := by
  intro block tx ix t hd hp
  rcases parse_spl_transfer_inv hp with ⟨d, hd2, hbr⟩
  rw [hd] at hd2
  rcases Option.some.inj hd2 with rfl
  rcases hbr with ⟨-, hv⟩ | ⟨hk, -⟩ | ⟨hk, -⟩ | ⟨hk, -⟩ | ⟨hk, -⟩ | ⟨hk, -⟩
  · rcases parse_transfer_inv hv with ⟨-, -, i0, i2, k0, k2, a, -, -, -, -, -, rfl⟩
    exact ⟨rfl, rfl, rfl⟩
  all_goals exact absurd hk (by decide)

/-- Witness for C10 at a concrete unchecked Transfer. -/
theorem c10_unchecked_transfer_witness :
    c10Ix.data.get? 0 = some 3 ∧
    ((⟨"c10sig", 77, some 30, "unknown_mint", "ata_three", "ata_two", "ata_three",
        "ata_two", 1000, 2, 4⟩ : TokenTransfer).mint_pubkey = "unknown_mint" ∧
     (⟨"c10sig", 77, some 30, "unknown_mint", "ata_three", "ata_two", "ata_three",
        "ata_two", 1000, 2, 4⟩ : TokenTransfer).source_owner =
       (⟨"c10sig", 77, some 30, "unknown_mint", "ata_three", "ata_two", "ata_three",
          "ata_two", 1000, 2, 4⟩ : TokenTransfer).source_ata ∧
     (⟨"c10sig", 77, some 30, "unknown_mint", "ata_three", "ata_two", "ata_three",
        "ata_two", 1000, 2, 4⟩ : TokenTransfer).dest_owner =
       (⟨"c10sig", 77, some 30, "unknown_mint", "ata_three", "ata_two", "ata_three",
          "ata_two", 1000, 2, 4⟩ : TokenTransfer).dest_ata) :=
  ⟨by decide, c10_unchecked_transfer c10Block c10Tx c10Ix _ (by decide) (by decide)⟩
